import Mathlib

/-!
Verification development for the provider-adapter layer and streaming
normalization protocol of a multi-provider AI chat front-end.

The TypeScript sources are shallowly embedded: strings are lists of
characters, `JSON.parse` is an executable fuel-based parser, JavaScript
member access / truthiness / optional chaining are modelled explicitly,
and each adapter's `chatStream` generator becomes a pure function from an
abstract fetch outcome (HTTP failure, missing body, or the list of decoded
reads delivered by the body reader) to the list of emitted stream chunks.
-/

namespace ChatSpec

/-- Characters of a JavaScript string; the whole model works on explicit
character lists so that every definition is executable. -/
abbrev Str := List Char

/-- Shorthand turning a Lean string literal into the model's string type. -/
def S (s : String) : Str := s.toList

/-- JSON values as produced by `JSON.parse`. Number literals keep their raw
lexeme: no claim depends on numeric values, only on parse success and
JavaScript truthiness. Object fields keep insertion order, as JavaScript
objects do. -/
inductive Json where
| null : Json
| bool (b : Bool) : Json
| num (raw : Str) : Json
| str (s : Str) : Json
| arr (elems : List Json) : Json
| obj (fields : List (Str × Json)) : Json
deriving Repr

/-- Digits of a number lexeme before any exponent marker; used to decide
JavaScript truthiness of a numeric value (`0`, `-0`, `0.0e5` are falsy). -/
def mantissaChars : Str → Str
| [] => []
| c :: cs => if c = 'e' ∨ c = 'E' then [] else c :: mantissaChars cs

/-- JavaScript truthiness of a JSON value. -/
def Json.truthy : Json → Bool
| .null => false
| .bool b => b
| .num raw => (mantissaChars raw).any (fun c => c.isDigit && c ≠ '0')
| .str s => ¬ s.isEmpty
| .arr _ => true
| .obj _ => true

/-- Truthiness of a possibly-undefined JavaScript value (`none` models
`undefined`). -/
def truthyOpt : Option Json → Bool
| none => false
| some j => j.truthy

/-- Field lookup on a JSON object field list (first occurrence; the parser
and all object builders keep keys unique, mirroring JavaScript objects). -/
def lookupField (fs : List (Str × Json)) (k : Str) : Option Json :=
  (fs.find? (fun p => p.1 = k)).map (fun p => p.2)

/-- JavaScript object property update: overwrite in place when the key
exists, append otherwise (object-literal spread / assignment semantics). -/
def objSet (fs : List (Str × Json)) (k : Str) (v : Json) : List (Str × Json) :=
  if fs.any (fun p => p.1 = k) then fs.map (fun p => if p.1 = k then (k, v) else p)
  else fs ++ [(k, v)]

/-- Non-throwing JS member access `v.k` for a value already known not to be
`null` (callers branch on `null` first, since `null.k` throws). Non-object
values have none of the properties the adapters read, hence `undefined`. -/
def jGet (j : Json) (k : Str) : Option Json :=
  match j with
  | .obj fs => lookupField fs k
  | _ => none

/-- Optional-chaining member access `v?.k`: short-circuits to `undefined`
on `undefined`/`null`, otherwise plain member access. -/
def jsOptProp : Option Json → Str → Option Json
| none, _ => none
| some .null, _ => none
| some j, k => jGet j k

/-- Optional-chaining index access `v?.[0]`: `undefined` on
`undefined`/`null`; first element of an array; key `"0"` of an object;
first character of a string; `undefined` otherwise. -/
def jsOptIndexZero : Option Json → Option Json
| some (.arr xs) => xs.head?
| some (.obj fs) => lookupField fs (S "0")
| some (.str s) => s.head?.map (fun c => Json.str [c])
| _ => none

/-- Model of `for (const x of v)`: arrays iterate their elements, strings iterate
single-character strings, anything else throws a TypeError (`.error`). -/
def jsIter : Json → Except Unit (List Json)
| .arr xs => .ok xs
| .str s => .ok (s.map (fun c => Json.str [c]))
| _ => .error ()

/-- Model of `v === "lit"` for a possibly-undefined value. -/
def isStrVal (o : Option Json) (s : Str) : Bool :=
  match o with
  | some (.str t) => t = s
  | _ => false

/-- Model of `v === true` for a possibly-undefined value. -/
def isTrueVal : Option Json → Bool
| some (.bool true) => true
| _ => false

/-! ### A JSON parser modelling `JSON.parse`

Fuel-based recursive-descent parser over character lists. It accepts
exactly the JSON grammar (objects, arrays, strings with escapes, numbers,
`true`/`false`/`null`) and rejects everything else, which is all the
adapters rely on: a `data:` line whose payload does not parse is skipped. -/

/-- JSON whitespace. -/
def isWs (c : Char) : Bool := c = ' ' ∨ c = '\t' ∨ c = '\n' ∨ c = '\r'

/-- Drop leading JSON whitespace. -/
def skipWs : Str → Str
| [] => []
| c :: cs => if isWs c then skipWs cs else c :: cs

/-- Hexadecimal digit value. -/
def hexVal (c : Char) : Option Nat :=
  if '0' ≤ c ∧ c ≤ '9' then some (c.toNat - 48)
  else if 'a' ≤ c ∧ c ≤ 'f' then some (c.toNat - 87)
  else if 'A' ≤ c ∧ c ≤ 'F' then some (c.toNat - 55)
  else none

/-- Parse the remainder of a JSON string literal (after the opening
quote), handling the escape sequences `JSON.parse` accepts and rejecting
raw control characters. Returns the decoded characters and the remainder
after the closing quote. -/
def parseStringBody : Str → Option (Str × Str)
| [] => none
| c :: cs =>
  if c = '"' then some ([], cs)
  else if c = '\\' then
    match cs with
    | [] => none
    | e :: cs2 =>
      if e = 'u' then
        match cs2 with
        | a :: b :: c3 :: d :: cs3 =>
          match hexVal a, hexVal b, hexVal c3, hexVal d with
          | some ha, some hb, some hc, some hd =>
            (parseStringBody cs3).map
              (fun r => (Char.ofNat (((ha * 16 + hb) * 16 + hc) * 16 + hd) :: r.1, r.2))
          | _, _, _, _ => none
        | _ => none
      else
        match (if e = '"' then some '"' else if e = '\\' then some '\\'
               else if e = '/' then some '/' else if e = 'b' then some (Char.ofNat 8)
               else if e = 'f' then some (Char.ofNat 12) else if e = 'n' then some '\n'
               else if e = 'r' then some '\r' else if e = 't' then some '\t' else none) with
        | none => none
        | some ch => (parseStringBody cs2).map (fun r => (ch :: r.1, r.2))
  else if c.toNat < 32 then none
  else (parseStringBody cs).map (fun r => (c :: r.1, r.2))

/-- Take a maximal run of decimal digits. -/
def takeDigits : Str → (Str × Str)
| [] => ([], [])
| c :: cs =>
  if c.isDigit then
    let r := takeDigits cs
    (c :: r.1, r.2)
  else ([], c :: cs)

/-- Parse an optional fraction part (`.digits`). -/
def parseFracPart : Str → Option (Str × Str)
| '.' :: rest =>
  match takeDigits rest with
  | ([], _) => none
  | (ds, r) => some ('.' :: ds, r)
| s => some ([], s)

/-- Parse an optional exponent part (`e`/`E`, optional sign, digits). -/
def parseExpPart : Str → Option (Str × Str)
| [] => some ([], [])
| c :: rest =>
  if c = 'e' ∨ c = 'E' then
    let signed : Str × Str :=
      match rest with
      | '+' :: r => (['+'], r)
      | '-' :: r => (['-'], r)
      | r => ([], r)
    match takeDigits signed.2 with
    | ([], _) => none
    | (ds, r2) => some (c :: signed.1 ++ ds, r2)
  else some ([], c :: rest)

/-- Parse a JSON number lexeme (sign, integer part without leading zeros,
optional fraction, optional exponent), returning the raw lexeme. -/
def parseNumberLex (s : Str) : Option (Str × Str) :=
  let signed : Str × Str :=
    match s with
    | '-' :: rest => (['-'], rest)
    | _ => ([], s)
  match takeDigits signed.2 with
  | ([], _) => none
  | (intPart, s2) =>
    if intPart.length > 1 ∧ intPart.head? = some '0' then none
    else
      match parseFracPart s2 with
      | none => none
      | some (fracPart, s3) =>
        match parseExpPart s3 with
        | none => none
        | some (expPart, s4) => some (signed.1 ++ intPart ++ fracPart ++ expPart, s4)

mutual

/-- Parse one JSON value; returns it with the unconsumed remainder. -/
def parseVal : Nat → Str → Option (Json × Str)
| 0, _ => none
| n + 1, s =>
  match skipWs s with
  | [] => none
  | '"' :: rest => (parseStringBody rest).map (fun r => (Json.str r.1, r.2))
  | '{' :: rest =>
    (match skipWs rest with
     | '}' :: r2 => some (Json.obj [], r2)
     | r1 => (parseFields n [] r1).map (fun r => (Json.obj r.1, r.2)))
  | '[' :: rest =>
    (match skipWs rest with
     | ']' :: r2 => some (Json.arr [], r2)
     | r1 => (parseElems n r1).map (fun r => (Json.arr r.1, r.2)))
  | 't' :: 'r' :: 'u' :: 'e' :: rest => some (Json.bool true, rest)
  | 'f' :: 'a' :: 'l' :: 's' :: 'e' :: rest => some (Json.bool false, rest)
  | 'n' :: 'u' :: 'l' :: 'l' :: rest => some (Json.null, rest)
  | other => (parseNumberLex other).map (fun r => (Json.num r.1, r.2))

/-- Parse one or more comma-separated array elements up to `]`. -/
def parseElems : Nat → Str → Option (List Json × Str)
| 0, _ => none
| n + 1, s =>
  match parseVal n s with
  | none => none
  | some (v, rest) =>
    match skipWs rest with
    | ',' :: r2 => (parseElems n r2).map (fun r => (v :: r.1, r.2))
    | ']' :: r2 => some ([v], r2)
    | _ => none

/-- Parse one or more comma-separated object members up to `}`,
accumulating fields left to right with `objSet` so that duplicate keys
keep the first position and the last value, as in JavaScript. -/
def parseFields : Nat → List (Str × Json) → Str → Option (List (Str × Json) × Str)
| 0, _, _ => none
| n + 1, acc, s =>
  match skipWs s with
  | '"' :: rest =>
    match parseStringBody rest with
    | none => none
    | some (key, r1) =>
      match skipWs r1 with
      | ':' :: r2 =>
        match parseVal n r2 with
        | none => none
        | some (v, r3) =>
          match skipWs r3 with
          | ',' :: r4 => parseFields n (objSet acc key v) r4
          | '}' :: r4 => some (objSet acc key v, r4)
          | _ => none
      | _ => none
  | _ => none

end

/-- Model of `JSON.parse`: parse a complete value, allowing trailing whitespace
only; `none` models a thrown `SyntaxError`. -/
def parseJson (s : Str) : Option Json :=
  match parseVal (2 * s.length + 8) s with
  | some (j, rem) => if skipWs rem = [] then some j else none
  | none => none

/-! ### String helpers -/

/-- Model of `s.startsWith(p)`. -/
def strStarts : Str → Str → Bool
| [], _ => true
| _ :: _, [] => false
| p :: ps, c :: cs => p = c && strStarts ps cs

/-- Model of `s.includes(needle)`. -/
def strHasSub (needle : Str) : Str → Bool
| [] => needle.isEmpty
| s@(_ :: rest) => strStarts needle s || strHasSub needle rest

/-- Model of `s.split(sep)` for a single-character separator; always nonempty. -/
def splitChar (sep : Char) : Str → List Str
| [] => [[]]
| c :: cs =>
  if c = sep then [] :: splitChar sep cs
  else
    match splitChar sep cs with
    | [] => [[c]]
    | h :: t => (c :: h) :: t

/-- Index of the first occurrence of a character. -/
def idxOfChar (c : Char) : Str → Option Nat
| [] => none
| x :: xs => if x = c then some 0 else (idxOfChar c xs).map (· + 1)

/-- Index of the last occurrence of a character. -/
def lastIdxOfChar (c : Char) (s : Str) : Option Nat :=
  (idxOfChar c s.reverse).map (fun i => s.length - 1 - i)

/-- Model of `meta.match(/data:(.*);/)?.[1]`: the regex matches at the leftmost
occurrence of `data:` that has a `;` somewhere after it, and the greedy
capture extends to the last such `;`. -/
def regexDataMime : Str → Option Str
| [] => none
| s@(_ :: rest) =>
  if strStarts (S "data:") s ∧ (s.drop 5).contains ';' then
    (lastIdxOfChar ';' (s.drop 5)).map (fun k => (s.drop 5).take k)
  else regexDataMime rest

/-- Model of `model.toLowerCase()`. -/
def strToLower (s : Str) : Str := s.map Char.toLower

/-! ### Base64 (Node `Buffer` semantics)

`Buffer.from(s, "base64")` ignores characters outside the alphabet
(including `=` padding) and decodes leftover groups of 2 or 3 characters
into 1 or 2 bytes. `buffer.toString("base64")` is the standard padded
encoding. -/

/-- Value of one base64 alphabet character. -/
def b64Val (c : Char) : Option Nat :=
  if 'A' ≤ c ∧ c ≤ 'Z' then some (c.toNat - 65)
  else if 'a' ≤ c ∧ c ≤ 'z' then some (c.toNat - 71)
  else if '0' ≤ c ∧ c ≤ '9' then some (c.toNat + 4)
  else if c = '+' then some 62
  else if c = '/' then some 63
  else none

/-- Decode a filtered list of 6-bit values into bytes. -/
def b64DecodeNums : List Nat → List Nat
| a :: b :: c :: d :: rest =>
  (a * 4 + b / 16) :: ((b % 16) * 16 + c / 4) :: ((c % 4) * 64 + d) :: b64DecodeNums rest
| [a, b, c] => [a * 4 + b / 16, (b % 16) * 16 + c / 4]
| [a, b] => [a * 4 + b / 16]
| _ => []

/-- Model of `Buffer.from(s, "base64")` as a byte list. -/
def b64Decode (s : Str) : List Nat := b64DecodeNums (s.filterMap b64Val)

/-- The base64 alphabet. -/
def b64Chars : Str := S "ABCDEFGHIJKLMNOPQRSTUVWXYZabcdefghijklmnopqrstuvwxyz0123456789+/"

/-- Character for one 6-bit value. -/
def b64CharOf (n : Nat) : Char := b64Chars.getD n 'A'

/-- Model of `buffer.toString("base64")`. -/
def b64Encode : List Nat → Str
| b1 :: b2 :: b3 :: rest =>
  b64CharOf (b1 / 4) :: b64CharOf ((b1 % 4) * 16 + b2 / 16) ::
  b64CharOf ((b2 % 16) * 4 + b3 / 64) :: b64CharOf (b3 % 64) :: b64Encode rest
| [b1, b2] => [b64CharOf (b1 / 4), b64CharOf ((b1 % 4) * 16 + b2 / 16), b64CharOf ((b2 % 16) * 4), '=']
| [b1] => [b64CharOf (b1 / 4), b64CharOf ((b1 % 4) * 16), '=', '=']
| [] => []

/-! ### WAV container synthesis (`encodeWavHeader`) -/

/-- Little-endian bytes of `buffer.writeUInt32LE`. -/
def u32le (v : Nat) : List Nat := [v % 256, v / 256 % 256, v / 65536 % 256, v / 16777216 % 256]

/-- Little-endian bytes of `buffer.writeUInt16LE`. -/
def u16le (v : Nat) : List Nat := [v % 256, v / 256 % 256]

/-- Overwrite `bytes` into `buf` starting at byte offset `off` (all the
source's writes are within the 44-byte header that `Buffer.alloc(44)`
provides). -/
def writeAt (buf : List Nat) (off : Nat) (bytes : List Nat) : List Nat :=
  buf.take off ++ bytes ++ buf.drop (off + bytes.length)

/-- The 44-byte header buffer of `encodeWavHeader` after each write of
the source, in source order: `Buffer.alloc(44)`. -/
def wavH0 : List Nat := List.replicate 44 0

/-- Header buffer after `header.write("RIFF", 0)`. -/
def wavH1 : List Nat := writeAt wavH0 0 [82, 73, 70, 70]

/-- Header buffer after `header.writeUInt32LE(36 + pcmBuffer.length, 4)`. -/
def wavH2 (len : Nat) : List Nat := writeAt wavH1 4 (u32le (36 + len))

/-- Header buffer after `header.write("WAVE", 8)`. -/
def wavH3 (len : Nat) : List Nat := writeAt (wavH2 len) 8 [87, 65, 86, 69]

/-- Header buffer after `header.write("fmt ", 12)`. -/
def wavH4 (len : Nat) : List Nat := writeAt (wavH3 len) 12 [102, 109, 116, 32]

/-- Header buffer after `header.writeUInt32LE(16, 16)`. -/
def wavH5 (len : Nat) : List Nat := writeAt (wavH4 len) 16 (u32le 16)

/-- Header buffer after `header.writeUInt16LE(1, 20)` (PCM format). -/
def wavH6 (len : Nat) : List Nat := writeAt (wavH5 len) 20 (u16le 1)

/-- Header buffer after `header.writeUInt16LE(1, 22)` (mono). -/
def wavH7 (len : Nat) : List Nat := writeAt (wavH6 len) 22 (u16le 1)

/-- Header buffer after `header.writeUInt32LE(sampleRate, 24)`. -/
def wavH8 (len sampleRate : Nat) : List Nat := writeAt (wavH7 len) 24 (u32le sampleRate)

/-- Header buffer after `header.writeUInt32LE(sampleRate * 2, 28)` (byte rate). -/
def wavH9 (len sampleRate : Nat) : List Nat :=
  writeAt (wavH8 len sampleRate) 28 (u32le (sampleRate * 2))

/-- Header buffer after `header.writeUInt16LE(2, 32)` (block align). -/
def wavH10 (len sampleRate : Nat) : List Nat := writeAt (wavH9 len sampleRate) 32 (u16le 2)

/-- Header buffer after `header.writeUInt16LE(16, 34)` (bits per sample). -/
def wavH11 (len sampleRate : Nat) : List Nat := writeAt (wavH10 len sampleRate) 34 (u16le 16)

/-- Header buffer after `header.write("data", 36)`. -/
def wavH12 (len sampleRate : Nat) : List Nat :=
  writeAt (wavH11 len sampleRate) 36 [100, 97, 116, 97]

/-- The complete 44-byte RIFF/WAVE header: the buffer after the final
`header.writeUInt32LE(pcmBuffer.length, 40)`. -/
def wavHeaderBytes (len sampleRate : Nat) : List Nat :=
  writeAt (wavH12 len sampleRate) 40 (u32le len)

/-- Model of `encodeWavHeader(pcmBuffer, sampleRate)`: prepend the header to the
PCM bytes. `Buffer.writeUInt32LE` throws `ERR_OUT_OF_RANGE` above
`2^32 - 1`, modelled as `none`. -/
def encodeWavHeader (pcm : List Nat) (sampleRate : Nat) : Option (List Nat) :=
  if 36 + pcm.length < 4294967296 ∧ sampleRate * 2 < 4294967296 then
    some (wavHeaderBytes pcm.length sampleRate ++ pcm)
  else none

/-- Read a 32-bit little-endian field at a byte offset. -/
def readU32LE (bs : List Nat) (off : Nat) : Nat :=
  bs.getD off 0 + 256 * bs.getD (off + 1) 0 + 65536 * bs.getD (off + 2) 0 +
    16777216 * bs.getD (off + 3) 0

/-! ### Content model (`types`, `adapters/base`) -/

/-- Message roles. -/
inductive Role where
| user | assistant | system
deriving DecidableEq, Repr

/-- The wire name of a role. -/
def roleName : Role → Str
| .user => S "user"
| .assistant => S "assistant"
| .system => S "system"

/-- Content item kinds of `MessageContentItem`. -/
inductive ContentType where
| text | image | file | audio | video
deriving DecidableEq, Repr

/-- One `MessageContentItem`; optional fields model absent (`undefined`)
properties. -/
structure ContentItem where
  type : ContentType
  text : Option Str := none
  url : Option Str := none
  fileName : Option Str := none
  mimeType : Option Str := none
deriving DecidableEq, Repr

/-- Model of `ChatMessage.content`: either a plain string or a content-item list. -/
inductive MsgContent where
| str (s : Str)
| items (l : List ContentItem)
deriving DecidableEq, Repr

/-- One chat message. -/
structure ChatMessage where
  role : Role
  content : MsgContent
deriving DecidableEq, Repr

/-- Model of `ModelCapabilities`: optional booleans in the source; `undefined` is
falsy, so plain `Bool` with default `false` is faithful to every truthy
test performed on the flags. -/
structure ModelCapabilities where
  functionCall : Bool := false
  vision : Bool := false
  file : Bool := false
  reasoning : Bool := false
  imageOutput : Bool := false
  search : Bool := false
  tts : Bool := false
  asr : Bool := false
  stt : Bool := false
deriving DecidableEq, Repr

/-- Model of `ToolParameter`. -/
structure ToolParameter where
  name : Str
  type : Str
  description : Str
  required : Bool
  enum : Option (List Str) := none
deriving DecidableEq, Repr

/-- Model of `ToolDefinition`. -/
structure ToolDefinition where
  id : Str
  name : Str
  description : Str
  parameters : List ToolParameter
  builtin : Bool := false
deriving DecidableEq, Repr

/-- The normalized `AdapterRequest`. `temperature` and `maxTokens` arrive
from client JSON, so they are kept as optional JSON values. -/
structure AdapterRequestM where
  messages : List ChatMessage := []
  model : Str := []
  baseUrl : Str := []
  apiKey : Str := []
  reasoning : Bool := false
  tools : Option (List ToolDefinition) := none
  temperature : Option Json := none
  maxTokens : Option Json := none
  capabilities : Option ModelCapabilities := none

/-- Model of `StreamChunk.type`. -/
inductive ChunkType where
| text | thinking | tool_call | tool_result | image | audio | error | done
deriving DecidableEq, Repr

/-- The `toolCall` payload attached to a `tool_call` chunk; every field is
a possibly-undefined JavaScript value. -/
structure ToolCallM where
  id : Option Json := none
  name : Option Json := none
  arguments : Option Json := none

/-- One unit of the internal streaming event protocol. -/
structure StreamChunk where
  type : ChunkType
  content : Option Json := none
  toolCall : Option ToolCallM := none
  imageUrl : Option Json := none
  mimeType : Option Str := none
  error : Option Str := none

/-- Model of `{type: "done"}`. -/
def mkDone : StreamChunk := { type := .done }

/-- Model of `{type: "error", error: msg}`. -/
def mkError (msg : Str) : StreamChunk := { type := .error, error := some msg }

/-- Model of `{type: "text", content: v}`. -/
def mkText (v : Option Json) : StreamChunk := { type := .text, content := v }

/-- Model of `{type: "thinking", content: v}`. -/
def mkThinking (v : Option Json) : StreamChunk := { type := .thinking, content := v }

/-- Model of `{type: "tool_call", toolCall: {...}}`. -/
def mkToolCall (id name arguments : Option Json) : StreamChunk :=
  { type := .tool_call, toolCall := some { id := id, name := name, arguments := arguments } }

/-! ### Streaming transport bridge

`chatStream` performs one `fetch`; its observable outcome is abstracted as
either a non-2xx response (status and body text), a 2xx response without a
body, or a 2xx response whose body reader delivers a list of decoded text
reads. The SSE loop is the same in every adapter: append each read to a
buffer, split on newline, keep the trailing partial segment, and process
each complete line. -/

/-- Observable outcome of the adapter's `fetch` call. -/
inductive FetchOutcome where
| notOk (status : Nat) (body : Str)
| okNoBody
| ok (reads : List Str)

/-- The complete lines processed by the SSE read loop: `buffer += read;
lines = buffer.split("\n"); buffer = lines.pop()`. The final buffer
content is never processed. -/
def collectLinesAux (buffer : Str) : List Str → List Str
| [] => []
| r :: rs =>
  let parts := splitChar '\n' (buffer ++ r)
  parts.dropLast ++ collectLinesAux (parts.getLastD []) rs

/-- Lines seen by the read loop over all reads. -/
def collectLines (reads : List Str) : List Str := collectLinesAux [] reads

/-- Run a per-line handler over the lines. The handler returns the chunks
yielded for the line and whether the generator `return`ed; when the loop
drains all reads without returning, the trailing `yield {type:"done"}`
fires. -/
def runLines (f : Str → List StreamChunk × Bool) : List Str → List StreamChunk
| [] => [mkDone]
| l :: ls =>
  let r := f l
  if r.2 then r.1 else r.1 ++ runLines f ls

/-- The `"data: "` SSE line prefix. -/
def dataPrefix : Str := S "data: "

/-- The `[DONE]` sentinel payload. -/
def doneSentinel : Str := S "[DONE]"

/-- Model of `API Error: ${status} - ${body}`. -/
def apiErrorMsg (status : Nat) (body : Str) : Str :=
  S "API Error: " ++ (Nat.repr status).toList ++ S " - " ++ body

/-- Model of `crypto.randomUUID()` produces an unpredictable fresh string; no claim
depends on its value, so the model fixes an arbitrary one. -/
def cryptoRandomUUID : Str := S "00000000-0000-4000-8000-000000000000"

/-! ### OpenAI-compatible streaming line handlers
(`DeepSeekAdapter.chatStream`, `CloudflareAdapter.chatStream` text path) -/

/-- Model of `JSON.parse(v)` applied to a JavaScript value: the argument is coerced
to a string first. Strings parse their contents, numbers re-parse their
lexeme, booleans stringify to parseable literals; array/object coercions
(`"1,2"`, `"[object Object]"`) do not parse. `none` models a throw. -/
def jsonParseOfVal : Json → Option Json
| .str s => parseJson s
| .num raw => parseJson raw
| .bool b => some (.bool b)
| _ => none

/-- The `for (const tc of delta.tool_calls)` loop body shared by the
OpenAI-compatible adapters: yields one `tool_call` chunk per entry, with
`arguments` JSON-parsed when truthy. A throw (member access on a null
entry, or an argument parse failure) aborts the loop, keeping the chunks
already yielded. -/
def emitToolCalls : List Json → List StreamChunk
| [] => []
| tc :: rest =>
  match tc with
  | .null => []
  | _ =>
    let idV := jGet tc (S "id")
    let fnV := jGet tc (S "function")
    let nameV := jsOptProp fnV (S "name")
    let argsRaw := jsOptProp fnV (S "arguments")
    if truthyOpt argsRaw then
      match jsonParseOfVal (argsRaw.getD .null) with
      | none => []
      | some args => mkToolCall idV nameV (some args) :: emitToolCalls rest
    else mkToolCall idV nameV none :: emitToolCalls rest

/-- Chunks yielded for one parsed SSE payload in
`DeepSeekAdapter.chatStream`: `const delta = parsed.choices[0]?.delta`
(member access on `null` and indexing `undefined`/`null` throw, skipping
the line), then `content` → `text`, `reasoning_content` → `thinking`,
`tool_calls` → `tool_call` chunks. -/
def deepseekParsedChunks (j : Json) : List StreamChunk :=
  match j with
  | .null => []
  | _ =>
    match jGet j (S "choices") with
    | none => []
    | some .null => []
    | some cj =>
      let delta := jsOptProp (jsOptIndexZero (some cj)) (S "delta")
      let contentV := jsOptProp delta (S "content")
      let textC := if truthyOpt contentV then [mkText contentV] else []
      let reasonV := jsOptProp delta (S "reasoning_content")
      let thinkC := if truthyOpt reasonV then [mkThinking reasonV] else []
      let toolsV := jsOptProp delta (S "tool_calls")
      if truthyOpt toolsV then
        match jsIter (toolsV.getD .null) with
        | .error _ => textC ++ thinkC
        | .ok tcs => textC ++ thinkC ++ emitToolCalls tcs
      else textC ++ thinkC

/-- One SSE line of `DeepSeekAdapter.chatStream`: only `data: ` lines are
considered; `[DONE]` yields `done` and returns; JSON parse failures and
TypeErrors inside the `try` are swallowed, skipping the line. -/
def deepseekLine (line : Str) : List StreamChunk × Bool :=
  if strStarts dataPrefix line then
    let data := line.drop 6
    if data = doneSentinel then ([mkDone], true)
    else
      match parseJson data with
      | none => ([], false)
      | some j => (deepseekParsedChunks j, false)
  else ([], false)

/-- Model of `DeepSeekAdapter.chatStream` as a function of the fetch outcome. -/
def deepseekChatStream : FetchOutcome → List StreamChunk
| .notOk st body => [mkError (apiErrorMsg st body)]
| .okNoBody => [mkError (S "No response body")]
| .ok reads => runLines deepseekLine (collectLines reads)

/-- Chunks yielded for one parsed SSE payload in the Cloudflare text path:
`const delta = parsed.choices?.[0]?.delta` (optional chaining on the
index, so only `parsed.choices` on a `null` parse throws), then `content`
→ `text` and `tool_calls` → `tool_call` chunks (no reasoning field). -/
def cloudflareParsedChunks (j : Json) : List StreamChunk :=
  match j with
  | .null => []
  | _ =>
    let delta := jsOptProp (jsOptIndexZero (jGet j (S "choices"))) (S "delta")
    let contentV := jsOptProp delta (S "content")
    let textC := if truthyOpt contentV then [mkText contentV] else []
    let toolsV := jsOptProp delta (S "tool_calls")
    if truthyOpt toolsV then
      match jsIter (toolsV.getD .null) with
      | .error _ => textC
      | .ok tcs => textC ++ emitToolCalls tcs
    else textC

/-- One SSE line of the Cloudflare text-chat streaming path. -/
def cloudflareLine (line : Str) : List StreamChunk × Bool :=
  if strStarts dataPrefix line then
    let data := line.drop 6
    if data = doneSentinel then ([mkDone], true)
    else
      match parseJson data with
      | none => ([], false)
      | some j => (cloudflareParsedChunks j, false)
  else ([], false)

/-! ### Cloudflare adapter: capability dispatch and non-chat bridging -/

/-- Model of `detectModelType` (src/services/adapters/cloudflare.ts): fixed
priority `tts` > `asr` > `stt` > `imageOutput` > `chat`. -/
inductive ModelType where
| chat | tts | asr | stt | image
deriving DecidableEq, Repr

/-- Model of `detectModelType(capabilities)`. -/
def detectModelType : Option ModelCapabilities → ModelType
| none => .chat
| some c =>
  if c.tts then .tts
  else if c.asr then .asr
  else if c.stt then .stt
  else if c.imageOutput then .image
  else .chat

/-- Audio payload of an `AdapterResponse`. -/
structure AudioInfo where
  url : Str
  mimeType : Str

/-- Model of `AdapterResponse` (the fields the non-chat streaming bridge reads,
plus the rest of the interface). -/
structure AdapterResponse where
  content : Str := []
  thinking : Option Str := none
  toolCalls : Option (List ToolCallM) := none
  images : Option (List Str) := none
  audio : Option AudioInfo := none
  usage : Option Json := none

/-- The chunk sequence the Cloudflare non-chat bridge derives from a
successful `this.chat(request)` result: `audio`, else each image, else a
nonempty `content`, then `done`. -/
def cfNonChatChunks (r : AdapterResponse) : List StreamChunk :=
  match r.audio with
  | some a => [{ type := .audio, content := some (.str a.url), mimeType := some a.mimeType }]
  | none =>
    if (r.images.getD []).length > 0 then
      (r.images.getD []).map (fun i => { type := .image, imageUrl := some (.str i) })
    else if ¬ r.content.isEmpty then [mkText (some (.str r.content))]
    else []

/-- Model of `CloudflareAdapter.chatStream`: non-chat capability types run the
non-streaming call and re-package its result (or its thrown error message)
followed by `done`; the chat type runs the OpenAI-compatible SSE loop.
`chatOutcome` abstracts the observable result of `this.chat(request)`. -/
def cloudflareChatStream (caps : Option ModelCapabilities)
    (chatOutcome : Except Str AdapterResponse) (f : FetchOutcome) : List StreamChunk :=
  if detectModelType caps ≠ .chat then
    match chatOutcome with
    | .ok r => cfNonChatChunks r ++ [mkDone]
    | .error e => [mkError e, mkDone]
  else
    match f with
    | .notOk st body => [mkError (apiErrorMsg st body)]
    | .okNoBody => [mkError (S "No response body")]
    | .ok reads => runLines cloudflareLine (collectLines reads)

/-! ### Anthropic adapter streaming -/

/-- One SSE line of `AnthropicAdapter.chatStream`: event-typed frames.
`content_block_delta`/`text_delta` yields a `text` chunk (the
`input_json_delta` case is deliberately empty in the source);
`content_block_start`/`tool_use` yields a `tool_call` chunk with id and
name only; `message_stop` yields `done` and returns. Member access on
`null`/`undefined` intermediate values throws inside the `try`, skipping
the line. -/
def anthropicLine (line : Str) : List StreamChunk × Bool :=
  if strStarts dataPrefix line then
    match parseJson (line.drop 6) with
    | none => ([], false)
    | some j =>
      match j with
      | .null => ([], false)
      | _ =>
        let tV := jGet j (S "type")
        if isStrVal tV (S "content_block_delta") then
          match jGet j (S "delta") with
          | none => ([], false)
          | some .null => ([], false)
          | some d =>
            let dt := jGet d (S "type")
            if isStrVal dt (S "text_delta") then ([mkText (jGet d (S "text"))], false)
            else ([], false)
        else if isStrVal tV (S "content_block_start") then
          match jGet j (S "content_block") with
          | none => ([], false)
          | some .null => ([], false)
          | some cb =>
            if isStrVal (jGet cb (S "type")) (S "tool_use") then
              ([mkToolCall (jGet cb (S "id")) (jGet cb (S "name")) none], false)
            else ([], false)
        else if isStrVal tV (S "message_stop") then ([mkDone], true)
        else ([], false)
  else ([], false)

/-- Model of `AnthropicAdapter.chatStream` as a function of the fetch outcome. -/
def anthropicChatStream : FetchOutcome → List StreamChunk
| .notOk st body => [mkError (apiErrorMsg st body)]
| .okNoBody => [mkError (S "No response body")]
| .ok reads => runLines anthropicLine (collectLines reads)

/-! ### Gemini adapter (src/unnamed/part_008, version with native audio) -/

/-- Model of `isTTSModel`: `model.toLowerCase().includes("tts")`. -/
def isTTSModel (model : Str) : Bool := strHasSub (S "tts") (strToLower model)

/-- One audio-capable content item per `hasAudioInput`: `c.type ===
"audio" || c.type === "file" && c.mimeType?.startsWith("audio/")`. -/
def itemIsAudioInput (c : ContentItem) : Bool :=
  c.type = .audio ||
    (c.type = .file &&
      (match c.mimeType with
       | some m => strStarts (S "audio/") m
       | none => false))

/-- Model of `hasAudioInput` applied to the last message's content. -/
def hasAudioContent : MsgContent → Bool
| .str _ => false
| .items l => l.any itemIsAudioInput

/-- The chunk yielded for a `functionCall` part (`id` is a fresh UUID). -/
def geminiFunctionCallChunk (fcV : Option Json) : StreamChunk :=
  mkToolCall (some (.str cryptoRandomUUID)) (jsOptProp fcV (S "name")) (jsOptProp fcV (S "args"))

/-- The `for (const part of parts)` loop of the Gemini SSE chat path:
`thought === true && text` → `thinking`, else truthy `text` → `text`;
truthy `functionCall` → `tool_call`; `inlineData?.mimeType?.startsWith`
→ `audio` chunk when the MIME type is an audio string (a truthy
non-string `mimeType` has no `startsWith` and throws, aborting the
loop with the chunks already yielded). -/
def geminiPartsChunks : List Json → List StreamChunk
| [] => []
| p :: rest =>
  match p with
  | .null => []
  | _ =>
    let thoughtV := jGet p (S "thought")
    let textV := jGet p (S "text")
    let c1 :=
      if isTrueVal thoughtV && truthyOpt textV then [mkThinking textV]
      else if truthyOpt textV then [mkText textV]
      else []
    let fcV := jGet p (S "functionCall")
    let c2 := if truthyOpt fcV then [geminiFunctionCallChunk fcV] else []
    let mimeV := jsOptProp (jGet p (S "inlineData")) (S "mimeType")
    match mimeV with
    | none => c1 ++ c2 ++ geminiPartsChunks rest
    | some .null => c1 ++ c2 ++ geminiPartsChunks rest
    | some (.str m) =>
      if strStarts (S "audio/") m then
        c1 ++ c2 ++
          [{ type := .audio, content := jsOptProp (jGet p (S "inlineData")) (S "data"),
             mimeType := some m }] ++ geminiPartsChunks rest
      else c1 ++ c2 ++ geminiPartsChunks rest
    | some _ => c1 ++ c2

/-- One SSE line of the Gemini chat streaming path:
`parsed.candidates?.[0]?.content?.parts || []`, then the part loop. -/
def geminiLine (line : Str) : List StreamChunk × Bool :=
  if strStarts dataPrefix line then
    match parseJson (line.drop 6) with
    | none => ([], false)
    | some j =>
      match j with
      | .null => ([], false)
      | _ =>
        let partsV :=
          jsOptProp (jsOptProp (jsOptIndexZero (jGet j (S "candidates"))) (S "content")) (S "parts")
        let partsJ := if truthyOpt partsV then partsV.getD .null else .arr []
        match jsIter partsJ with
        | .error _ => ([], false)
        | .ok parts => (geminiPartsChunks parts, false)
  else ([], false)

/-- The Gemini chat SSE loop (no `[DONE]` sentinel; the stream ends when
the reads end, followed by the trailing `done`). -/
def geminiSseStream : FetchOutcome → List StreamChunk
| .notOk st body => [mkError (apiErrorMsg st body)]
| .okNoBody => [mkError (S "No response body")]
| .ok reads => runLines geminiLine (collectLines reads)

/-- Per-part processing of `nativeAudioStream`: truthy `text` is yielded
immediately; truthy `inlineData.data` is base64-decoded and buffered (a
truthy non-string value makes `Buffer.from` throw, aborting the line);
truthy `functionCall` yields a `tool_call` chunk. Returns the chunks
yielded and the PCM buffers pushed. -/
def geminiAudioParts : List Json → List StreamChunk × List (List Nat)
| [] => ([], [])
| p :: rest =>
  match p with
  | .null => ([], [])
  | _ =>
    let textV := jGet p (S "text")
    let c1 := if truthyOpt textV then [mkText textV] else []
    let dataV := jsOptProp (jGet p (S "inlineData")) (S "data")
    let fcV := jGet p (S "functionCall")
    let c2 := if truthyOpt fcV then [geminiFunctionCallChunk fcV] else []
    if truthyOpt dataV then
      match dataV with
      | some (.str b64) =>
        let r := geminiAudioParts rest
        (c1 ++ c2 ++ r.1, b64Decode b64 :: r.2)
      | _ => (c1, [])
    else
      let r := geminiAudioParts rest
      (c1 ++ c2 ++ r.1, r.2)

/-- One SSE line of `nativeAudioStream`. -/
def geminiAudioLine (line : Str) : List StreamChunk × List (List Nat) :=
  if strStarts dataPrefix line then
    match parseJson (line.drop 6) with
    | none => ([], [])
    | some j =>
      match j with
      | .null => ([], [])
      | _ =>
        let partsV :=
          jsOptProp (jsOptProp (jsOptIndexZero (jGet j (S "candidates"))) (S "content")) (S "parts")
        let partsJ := if truthyOpt partsV then partsV.getD .null else .arr []
        match jsIter partsJ with
        | .error _ => ([], [])
        | .ok parts => geminiAudioParts parts
  else ([], [])

/-- All lines of `nativeAudioStream`: concatenated chunks and PCM buffers
in arrival order. -/
def geminiAudioLines : List Str → List StreamChunk × List (List Nat)
| [] => ([], [])
| l :: ls =>
  let a := geminiAudioLine l
  let b := geminiAudioLines ls
  (a.1 ++ b.1, a.2 ++ b.2)

/-- Model of `nativeAudioStream` on a successful fetch with a body: forward text
and tool calls immediately; after the reads end, concatenate the buffered
PCM, wrap it in a WAV container, and yield one consolidated base64 `audio`
chunk, then `done`. If `encodeWavHeader` throws (PCM too large for the
32-bit header fields), the exception propagates and the generator ends
without further chunks. -/
def geminiNativeAudioOk (reads : List Str) : List StreamChunk :=
  let r := geminiAudioLines (collectLines reads)
  if r.2.length > 0 then
    match encodeWavHeader r.2.flatten 24000 with
    | some wav =>
      r.1 ++ [{ type := .audio, content := some (.str (b64Encode wav)),
                mimeType := some (S "audio/wav") }] ++ [mkDone]
    | none => r.1
  else r.1 ++ [mkDone]

/-- Model of `nativeAudioStream` as a function of the fetch outcome. -/
def geminiNativeAudioStream : FetchOutcome → List StreamChunk
| .notOk st body =>
  [mkError (S "Native Audio API Error: " ++ (Nat.repr st).toList ++ S " - " ++ body)]
| .okNoBody => [mkError (S "No response body")]
| .ok reads => geminiNativeAudioOk reads

/-- Model of `needsNativeAudio` requires declared `asr`/`stt` capability; the
audio-input check then reads the last message (throwing on an empty
message list, handled by the caller). -/
def capsAsrStt : Option ModelCapabilities → Bool
| none => false
| some c => c.asr || c.stt

/-- Model of `GeminiAdapter.chatStream`: TTS models (by name sniffing) run the
non-streaming TTS call and re-package its audio or error, then `done`;
requests needing native audio run `nativeAudioStream`; everything else
runs the chat SSE loop. `ttsOutcome` abstracts `this.ttsChat(request,
baseUrl)`. With an empty message list and `asr`/`stt` capability,
`hasAudioInput` throws a TypeError before any yield, ending the stream
with no chunks. -/
def geminiChatStream (model : Str) (caps : Option ModelCapabilities)
    (messages : List ChatMessage) (ttsOutcome : Except Str AudioInfo)
    (f : FetchOutcome) : List StreamChunk :=
  if isTTSModel model then
    match ttsOutcome with
    | .ok a =>
      [{ type := .audio, content := some (.str a.url), mimeType := some a.mimeType }, mkDone]
    | .error e => [mkError e, mkDone]
  else if capsAsrStt caps then
    match messages.getLast? with
    | none => []
    | some m => if hasAudioContent m.content then geminiNativeAudioStream f else geminiSseStream f
  else geminiSseStream f

/-! ### Message formatting and outbound request bodies

Outbound bodies are modelled as ordered key-value lists, mirroring
`JSON.stringify` of the object literal: fields whose value is `undefined`
are dropped, insertion order is kept. -/

/-- Build a JSON object from optional field values, dropping `undefined`
fields as `JSON.stringify` does. -/
def jsonObjOpt (fs : List (Str × Option Json)) : Json :=
  .obj (fs.filterMap (fun p => p.2.map (fun v => (p.1, v))))

/-- A JSON string value. -/
def strJ (s : Str) : Json := .str s

/-- Lift an optional model string into an optional JSON string. -/
def ostrJ (o : Option Str) : Option Json := o.map strJ

/-- JavaScript `a || b` on a possibly-undefined string: an absent or empty
string falls through to the default. -/
def strOr (a : Option Str) (b : Str) : Str :=
  match a with
  | some s => if s.isEmpty then b else s
  | none => b

/-- Model of `contentToText` (BaseAdapter): concatenate the `text` of text-typed
items with newlines (`Array.prototype.join` renders `undefined` entries
as empty strings). -/
def contentToText : MsgContent → Str
| .str s => s
| .items l =>
  List.intercalate [ '\n' ] (((l.filter (fun c => c.type = .text)).map (fun c => c.text.getD [])))

/-- Model of `extractImages` (BaseAdapter): URLs of image-typed items (`c.url!`
asserts presence; an absent URL surfaces as `undefined`, modelled by the
empty string never arising in practice — kept optional here). -/
def extractImages (l : List ContentItem) : List (Option Str) :=
  (l.filter (fun c => c.type = .image)).map (fun c => c.url)

/-- Multimodal content blocks of the OpenAI-compatible `formatMessages`:
`text` → `{type:"text", text}`, `image` → `{type:"image_url",
image_url:{url}}`, everything else skipped. -/
def openaiContentBlocks (l : List ContentItem) : List Json :=
  (l.map (fun item =>
    if item.type = .text then
      [jsonObjOpt [(S "type", some (strJ (S "text"))), (S "text", ostrJ item.text)]]
    else if item.type = .image then
      [jsonObjOpt [(S "type", some (strJ (S "image_url"))),
                   (S "image_url", some (jsonObjOpt [(S "url", ostrJ item.url)]))]]
    else [])).flatten

/-- OpenAI-compatible `formatMessages`: roles pass through unchanged. -/
def openaiFormatMessages (msgs : List ChatMessage) : List Json :=
  msgs.map (fun m =>
    match m.content with
    | .str s => Json.obj [(S "role", strJ (roleName m.role)), (S "content", strJ s)]
    | .items l =>
      Json.obj [(S "role", strJ (roleName m.role)), (S "content", .arr (openaiContentBlocks l))])

/-- The `properties` object of `toOpenAITools`: a `reduce` with object
spread, so duplicate parameter names overwrite in place. `param.enum` is
included whenever present (arrays are truthy even when empty). -/
def toolParamProps (ps : List ToolParameter) : List (Str × Json) :=
  ps.foldl
    (fun acc p =>
      objSet acc p.name
        (jsonObjOpt [(S "type", some (strJ p.type)),
                     (S "description", some (strJ p.description)),
                     (S "enum", p.enum.map (fun vs => Json.arr (vs.map strJ)))]))
    []

/-- Model of `toOpenAITools` (src/config/tools.ts): the vendor's
`{type:"function", function:{name, description, parameters}}` shape, with
`name` taken from `tool.id` and `required` from the flagged parameters. -/
def toOpenAITools (tools : List ToolDefinition) : List Json :=
  tools.map (fun tool =>
    Json.obj
      [(S "type", strJ (S "function")),
       (S "function",
        Json.obj
          [(S "name", strJ tool.id),
           (S "description", strJ tool.description),
           (S "parameters",
            Json.obj
              [(S "type", strJ (S "object")),
               (S "properties", Json.obj (toolParamProps tool.parameters)),
               (S "required",
                Json.arr (((tool.parameters.filter (fun p => p.required)).map
                  (fun p => strJ p.name))))])])])

/-- Model of `DeepSeekAdapter.chatStream` outbound body: `tools: tools?.length ?
tools : undefined` omits the field for an absent or empty tool list;
`reasoning_effort` is appended when `request.reasoning` is truthy. -/
def deepseekBody (r : AdapterRequestM) : List (Str × Json) :=
  let tools := r.tools.map toOpenAITools
  let toolsField : Option Json :=
    match tools with
    | some ts => if ts.length ≠ 0 then some (Json.arr ts) else none
    | none => none
  let base :=
    [(S "model", strJ r.model), (S "messages", Json.arr (openaiFormatMessages r.messages))]
    ++ (match toolsField with | some t => [(S "tools", t)] | none => [])
    ++ [(S "temperature", r.temperature.getD (Json.num (S "0.7")))]
    ++ (match r.maxTokens with | some v => [(S "max_tokens", v)] | none => [])
    ++ [(S "stream", Json.bool true)]
  if r.reasoning then base ++ [(S "reasoning_effort", strJ (S "high"))] else base

/-- Cloudflare text-chat streaming outbound body (same `tools` handling as
DeepSeek; always sends `reasoning: "enabled"` and `stream: true`). -/
def cloudflareChatBody (r : AdapterRequestM) : List (Str × Json) :=
  let tools := r.tools.map toOpenAITools
  let toolsField : Option Json :=
    match tools with
    | some ts => if ts.length ≠ 0 then some (Json.arr ts) else none
    | none => none
  [(S "model", strJ r.model), (S "messages", Json.arr (openaiFormatMessages r.messages))]
  ++ (match toolsField with | some t => [(S "tools", t)] | none => [])
  ++ [(S "temperature", r.temperature.getD (Json.num (S "0.7")))]
  ++ (match r.maxTokens with | some v => [(S "max_tokens", v)] | none => [])
  ++ [(S "reasoning", strJ (S "enabled")), (S "stream", Json.bool true)]

/-- Anthropic content blocks: `text` → text block; `image` with a `data:`
URL → base64 source block (the payload after the first comma; the media
type from the `/data:(.*);/` capture, defaulting to `image/png`). An
image with a remote (non-`data:`) URL, or with no URL, produces nothing:
no block, no error, no signal of any kind. -/
def anthropicContentBlocks (l : List ContentItem) : List Json :=
  (l.map (fun item =>
    if item.type = .text then
      [jsonObjOpt [(S "type", some (strJ (S "text"))), (S "text", ostrJ item.text)]]
    else
      match item.type, item.url with
      | .image, some u =>
        if strStarts (S "data:") u then
          let segs := splitChar ',' u
          [Json.obj
            [(S "type", strJ (S "image")),
             (S "source",
              jsonObjOpt
                [(S "type", some (strJ (S "base64"))),
                 (S "media_type",
                  some (strJ (strOr (regexDataMime (segs.headD [])) (S "image/png")))),
                 (S "data", ostrJ (segs.get? 1))])]]
        else []
      | _, _ => [])).flatten

/-- Result of `AnthropicAdapter.formatMessages`: the hoisted system string
and the vendor message array. -/
structure AnthropicFormatted where
  system : Str
  messages : List Json

/-- Model of `AnthropicAdapter.formatMessages`: system messages are hoisted out of
the array (the last one wins); other messages keep their role with either
a plain string or a content-block array. -/
def anthropicFormatMessages (sys : Str) : List ChatMessage → AnthropicFormatted
| [] => { system := sys, messages := [] }
| m :: rest =>
  if m.role = .system then anthropicFormatMessages (contentToText m.content) rest
  else
    let jmsg :=
      match m.content with
      | .str s => Json.obj [(S "role", strJ (roleName m.role)), (S "content", strJ s)]
      | .items l =>
        Json.obj [(S "role", strJ (roleName m.role)),
                  (S "content", .arr (anthropicContentBlocks l))]
    let r := anthropicFormatMessages sys rest
    { system := r.system, messages := jmsg :: r.messages }

/-- Model of `AnthropicAdapter.formatTools`: `input_schema` instead of
`parameters`; `name` from `tool.id`. -/
def anthropicFormatTools (tools : List ToolDefinition) : List Json :=
  tools.map (fun tool =>
    Json.obj
      [(S "name", strJ tool.id),
       (S "description", strJ tool.description),
       (S "input_schema",
        Json.obj
          [(S "type", strJ (S "object")),
           (S "properties", Json.obj (toolParamProps tool.parameters)),
           (S "required",
            Json.arr (((tool.parameters.filter (fun p => p.required)).map
              (fun p => strJ p.name))))])])

/-- Model of `AnthropicAdapter.chatStream` outbound body: `tools: request.tools ?
this.formatTools(request.tools) : undefined` — an empty array is truthy,
so an empty tool list is formatted and sent as `"tools": []`. -/
def anthropicBody (r : AdapterRequestM) : List (Str × Json) :=
  let fm := anthropicFormatMessages [] r.messages
  let toolsField : Option Json :=
    match r.tools with
    | some ts => some (Json.arr (anthropicFormatTools ts))
    | none => none
  [(S "model", strJ r.model), (S "system", strJ fm.system),
   (S "messages", Json.arr fm.messages)]
  ++ (match toolsField with | some t => [(S "tools", t)] | none => [])
  ++ [(S "max_tokens", if truthyOpt r.maxTokens then r.maxTokens.getD .null
                       else Json.num (S "4096")),
      (S "temperature", r.temperature.getD (Json.num (S "0.7"))),
      (S "stream", Json.bool true)]

/-- One formatted Gemini content entry. -/
structure GeminiContent where
  role : Str
  parts : List Json

/-- Parts contributed by one content item in `GeminiAdapter.formatMessages`:
`text` → text part; `image` with a `data:` URL → `inlineData`, with a
remote URL → `fileData`; `audio`/`file` with a `data:` URL → `inlineData`
(MIME from the regex capture, else the item's `mimeType`, else
`audio/wav`). -/
def geminiItemParts (item : ContentItem) : List Json :=
  if item.type = .text then [jsonObjOpt [(S "text", ostrJ item.text)]]
  else
    match item.type, item.url with
    | .image, some u =>
      if strStarts (S "data:") u then
        let segs := splitChar ',' u
        [Json.obj
          [(S "inlineData",
            jsonObjOpt
              [(S "mimeType",
                some (strJ (strOr (regexDataMime (segs.headD [])) (S "image/png")))),
               (S "data", ostrJ (segs.get? 1))])]]
      else [Json.obj [(S "fileData", Json.obj [(S "fileUri", strJ u)])]]
    | .audio, some u =>
      if strStarts (S "data:") u then
        let segs := splitChar ',' u
        [Json.obj
          [(S "inlineData",
            jsonObjOpt
              [(S "mimeType",
                some (strJ (strOr (regexDataMime (segs.headD []))
                  (strOr item.mimeType (S "audio/wav"))))),
               (S "data", ostrJ (segs.get? 1))])]]
      else []
    | .file, some u =>
      if strStarts (S "data:") u then
        let segs := splitChar ',' u
        [Json.obj
          [(S "inlineData",
            jsonObjOpt
              [(S "mimeType",
                some (strJ (strOr (regexDataMime (segs.headD []))
                  (strOr item.mimeType (S "audio/wav"))))),
               (S "data", ostrJ (segs.get? 1))])]]
      else []
    | _, _ => []

/-- Model of `GeminiAdapter.formatMessages`: `const role = msg.role === "assistant"
? "model" : "user"` — the assistant role becomes `model` and every other
role, including `system`, becomes `user`. -/
def geminiFormatMessage (msg : ChatMessage) : GeminiContent :=
  let role := if msg.role = .assistant then S "model" else S "user"
  match msg.content with
  | .str s => { role := role, parts := [Json.obj [(S "text", strJ s)]] }
  | .items l => { role := role, parts := (l.map geminiItemParts).flatten }

/-- Model of `GeminiAdapter.formatMessages` over a message list. -/
def geminiFormatMessages (msgs : List ChatMessage) : List GeminiContent :=
  msgs.map geminiFormatMessage

/-- Gemini `formatTools`: one wrapper object holding
`functionDeclarations` built from every tool (types uppercased). -/
def geminiFormatTools (tools : List ToolDefinition) : List Json :=
  [Json.obj
    [(S "functionDeclarations",
      Json.arr (tools.map (fun tool =>
        Json.obj
          [(S "name", strJ tool.id),
           (S "description", strJ tool.description),
           (S "parameters",
            Json.obj
              [(S "type", strJ (S "OBJECT")),
               (S "properties",
                Json.obj
                  (tool.parameters.foldl
                    (fun acc p =>
                      objSet acc p.name
                        (jsonObjOpt
                          [(S "type", some (strJ (p.type.map Char.toUpper))),
                           (S "description", some (strJ p.description)),
                           (S "enum", p.enum.map (fun vs => Json.arr (vs.map strJ)))]))
                    [])),
               (S "required",
                Json.arr (((tool.parameters.filter (fun p => p.required)).map
                  (fun p => strJ p.name))))])])))]]

/-- Model of `buildGenerationConfig` for the chat path. -/
def geminiGenerationConfig (r : AdapterRequestM) : Json :=
  Json.obj
    ([(S "temperature", r.temperature.getD (Json.num (S "0.7")))]
     ++ (if truthyOpt r.maxTokens then [(S "maxOutputTokens", r.maxTokens.getD .null)] else [])
     ++ (if r.reasoning then
          [(S "thinkingConfig",
            Json.obj [(S "includeThoughts", Json.bool true),
                      (S "thinking_level", strJ (S "HIGH"))])]
         else []))

/-- Model of `GeminiAdapter.chatStream` outbound body: `tools: request.tools ?
this.formatTools(request.tools) : undefined` — an empty array is truthy,
so an empty tool list still sends one empty `functionDeclarations`
group. -/
def geminiBody (r : AdapterRequestM) : List (Str × Json) :=
  [(S "contents",
    Json.arr ((geminiFormatMessages r.messages).map (fun gc =>
      Json.obj [(S "role", strJ gc.role), (S "parts", Json.arr gc.parts)])))]
  ++ (match r.tools with
      | some ts => [(S "tools", Json.arr (geminiFormatTools ts))]
      | none => [])
  ++ [(S "generationConfig", geminiGenerationConfig r)]

/-- Whether a serialized body contains a given top-level key. -/
def bodyHasKey (body : List (Str × Json)) (k : Str) : Bool :=
  body.any (fun p => p.1 = k)

/-! ### Orchestration route (src/app/api/chat/route.ts, streaming branch) -/

/-- One SSE frame enqueued by the route's streaming branch. -/
inductive Frame where
| searchResults (data : Json)
| toolResult (toolId : Json) (result : Json)
| chunk (c : StreamChunk)

/-- The tool name and arguments of a chunk that triggers tool execution:
`chunk.type === "tool_call" && chunk.toolCall?.name` (truthy name), with
`chunk.toolCall.arguments || {}` as the arguments. -/
def namedToolCall? (c : StreamChunk) : Option (Json × Json) :=
  if c.type = .tool_call then
    match c.toolCall with
    | some tc =>
      match tc.name with
      | some nm =>
        if nm.truthy then
          some (nm, if truthyOpt tc.arguments then tc.arguments.getD (Json.obj []) else Json.obj [])
        else none
      | none => none
    | none => none
  else none

/-- The route's per-chunk relay loop: for a named `tool_call` chunk the
tool is executed and its `tool_result` frame is enqueued first, then the
original chunk is forwarded; the loop breaks after forwarding a `done` or
`error` chunk. `exec` abstracts `executeTool(name, arguments)`. -/
def routeStreamFrames (exec : Json → Json → Json) : List StreamChunk → List Frame
| [] => []
| c :: cs =>
  (match namedToolCall? c with
   | some nt => [Frame.toolResult nt.1 (exec nt.1 nt.2)]
   | none => [])
  ++ [Frame.chunk c]
  ++ (if c.type = .done ∨ c.type = .error then [] else routeStreamFrames exec cs)

/-- The whole streaming response body: the optional `search_results`
frame, then the relayed chunks. -/
def routeFrames (exec : Json → Json → Json) (searchResults : Option Json)
    (chunks : List StreamChunk) : List Frame :=
  (match searchResults with
   | some d => [Frame.searchResults d]
   | none => [])
  ++ routeStreamFrames exec chunks

/-! ### Stream-shape predicates -/

/-- A chunk that is neither `done` nor `error`. -/
def chunkNonTerminal (c : StreamChunk) : Bool :=
  decide (c.type ≠ .done) && decide (c.type ≠ .error)

/-- Every chunk of the list is non-terminal. -/
def noTerm (cs : List StreamChunk) : Bool := cs.all chunkNonTerminal

/-- The termination shape every modelled `chatStream` satisfies: a
non-terminal prefix followed by exactly one `done`, or by an `error` as
the last element, or — in the non-chat fallback paths — by an `error`
immediately followed by one final `done`. -/
def wellFormedEnd (cs : List StreamChunk) : Prop :=
  ∃ pre, noTerm pre = true ∧
    (cs = pre ++ [mkDone] ∨
     ∃ e, e.type = .error ∧ (cs = pre ++ [e] ∨ cs = pre ++ [e, mkDone]))

/-- The claim's stricter condition: no chunk at all is emitted after a
`done` or an `error` chunk. -/
def noChunkAfterTerminal : List StreamChunk → Bool
| [] => true
| c :: rest =>
  if c.type = .done ∨ c.type = .error then rest.isEmpty else noChunkAfterTerminal rest

/-- A per-line handler is well behaved when a `return`ing line yields
exactly the `done` chunk and every other line yields only non-terminal
chunks. -/
def handlerOk (f : Str → List StreamChunk × Bool) : Prop :=
  ∀ l, if (f l).2 then (f l).1 = [mkDone] else noTerm (f l).1 = true

/-- Total PCM payload a fetch outcome delivers to `nativeAudioStream`
(zero for non-body outcomes); bounds the WAV header length fields. -/
def geminiPcmTotal : FetchOutcome → Nat
| .ok reads => ((geminiAudioLines (collectLines reads)).2.flatten).length
| _ => 0

/-- Stated from the spec's words (§4.3): `detectModelType(capabilities) ->
chat|tts|asr|stt|image`, evaluated with fixed priority order tts, then
asr, then stt, then imageOutput, else chat. -/
def detectModelTypeSpec : Option ModelCapabilities → ModelType
| none => .chat
| some c =>
  if c.tts then .tts
  else if c.asr then .asr
  else if c.stt then .stt
  else if c.imageOutput then .image
  else .chat

/-- Ordering invariant of the route's frame list: every relayed chunk
frame that is a named `tool_call` is immediately preceded by the
`tool_result` frame the route synthesized for it. -/
def framesOk (exec : Json → Json → Json) : Option Frame → List Frame → Prop
| _, [] => True
| prev, f :: rest =>
  (match f with
   | .chunk c =>
     (match namedToolCall? c with
      | some nt => prev = some (Frame.toolResult nt.1 (exec nt.1 nt.2))
      | none => True)
   | _ => True) ∧ framesOk exec (some f) rest

/-! ### Concrete inputs used by witnesses and counterexamples -/

/-- First SSE read of the C2 scenario. -/
def c2read1 : Str := S "data: \x7b\"choices\":[\x7b\"delta\":\x7b\"content\":\"Hi\"\x7d\x7d]\x7d\n"

/-- Second SSE read of the C2 scenario. -/
def c2read2 : Str := S "data: \x7b\"choices\":[\x7b\"delta\":\x7b\"content\":\" there\"\x7d\x7d]\x7d\n"

/-- Final SSE read of the C2 scenario. -/
def c2read3 : Str := S "data: [DONE]\n"

/-- The malformed SSE line of the C8 scenario. -/
def c8badLine : Str := S "data: \x7bnot valid json"

/-- The valid SSE line of the C8 scenario. -/
def c8goodLine : Str := S "data: \x7b\"choices\":[\x7b\"delta\":\x7b\"content\":\"ok\"\x7d\x7d]\x7d"

/-- One native-audio SSE read carrying a text part and a PCM part. -/
def c9read : Str :=
  S "data: \x7b\"candidates\":[\x7b\"content\":\x7b\"parts\":[\x7b\"text\":\"hello\"\x7d,\x7b\"inlineData\":\x7b\"mimeType\":\"audio/pcm\",\"data\":\"AAEC\"\x7d\x7d]\x7d\x7d]\x7d\n"

/-- The error message a failed Cloudflare TTS sub-call propagates. -/
def cfTtsErr : Str := S "TTS API Error: 500 - boom"

/-- An `AdapterRequest` whose `tools` field is present but empty. -/
def emptyToolsReq : AdapterRequestM := { tools := some [] }

/-- A system-role message. -/
def sysMsg : ChatMessage := { role := .system, content := .str (S "be brief") }

/-- A user message whose only content is an image with a remote URL. -/
def remoteImageMsg : ChatMessage :=
  { role := .user,
    content := .items [{ type := .image, url := some (S "https://example.com/a.png") }] }

/-- Sample PCM bytes for the WAV witness. -/
def wavWitnessPcm : List Nat := [1, 2, 3]

/-! ## Helper lemmas -/

/-- Model of `noTerm` distributes over append. -/
theorem noTerm_append (a b : List StreamChunk) :
    noTerm (a ++ b) = (noTerm a && noTerm b) := by
  simp [noTerm, List.all_append]

/-! ## Theorems -/

/-- Reading with `getD` through `take`, below the cut. -/
theorem getD_take : ∀ (buf : List Nat) (off i : Nat), i < off →
    (buf.take off).getD i 0 = buf.getD i 0 := by
  intro buf
  induction buf with
  | nil => intro off i _; simp
  | cons x xs ih =>
    intro off i h
    cases off with
    | zero => exact absurd h (Nat.not_lt_zero i)
    | succ o =>
      cases i with
      | zero => rfl
      | succ j => exact ih o j (Nat.lt_of_succ_lt_succ h)

/-- Length of an in-range write. -/
theorem length_writeAt (buf bytes : List Nat) (off : Nat)
    (h : off + bytes.length ≤ buf.length) :
    (writeAt buf off bytes).length = buf.length := by
  unfold writeAt
  simp only [List.length_append, List.length_take, List.length_drop]
  omega

/-- A write does not disturb bytes before its offset. -/
theorem getD_writeAt_lt (buf bytes : List Nat) (off i : Nat) (h1 : i < off)
    (h2 : off ≤ buf.length) :
    (writeAt buf off bytes).getD i 0 = buf.getD i 0 := by
  unfold writeAt
  rw [List.getD_append, List.getD_append, getD_take buf off i h1]
  · rw [List.length_take]; omega
  · rw [List.length_append, List.length_take]; omega

/-- Reading inside the written range returns the written bytes. -/
theorem getD_writeAt_in (buf bytes : List Nat) (off i : Nat) (h1 : off ≤ i)
    (h2 : i < off + bytes.length) (h3 : off ≤ buf.length) :
    (writeAt buf off bytes).getD i 0 = bytes.getD (i - off) 0 := by
  unfold writeAt
  rw [List.getD_append, List.getD_append_right]
  · congr 1
    rw [List.length_take]
    omega
  · rw [List.length_take]; omega
  · rw [List.length_append, List.length_take]; omega

/-- A 32-bit read strictly before a write is unchanged. -/
theorem readU32LE_writeAt_before (buf bytes : List Nat) (off k : Nat)
    (h1 : k + 4 ≤ off) (h2 : off ≤ buf.length) :
    readU32LE (writeAt buf off bytes) k = readU32LE buf k := by
  unfold readU32LE
  rw [getD_writeAt_lt buf bytes off k (by omega) h2,
    getD_writeAt_lt buf bytes off (k + 1) (by omega) h2,
    getD_writeAt_lt buf bytes off (k + 2) (by omega) h2,
    getD_writeAt_lt buf bytes off (k + 3) (by omega) h2]

/-- A 32-bit read at the offset of a just-written `u32le` recovers the
value (below `2^32`). -/
theorem readU32LE_writeAt_at (buf : List Nat) (off v : Nat) (h1 : off + 4 ≤ buf.length)
    (h2 : v < 4294967296) :
    readU32LE (writeAt buf off (u32le v)) off = v := by
  unfold readU32LE
  rw [getD_writeAt_in buf (u32le v) off off (Nat.le_refl off) (by simp [u32le]) (by omega),
    getD_writeAt_in buf (u32le v) off (off + 1) (by omega) (by simp [u32le]) (by omega),
    getD_writeAt_in buf (u32le v) off (off + 2) (by omega) (by simp [u32le]) (by omega),
    getD_writeAt_in buf (u32le v) off (off + 3) (by omega) (by simp [u32le]) (by omega)]
  simp only [Nat.sub_self]
  have e1 : off + 1 - off = 1 := by omega
  have e2 : off + 2 - off = 2 := by omega
  have e3 : off + 3 - off = 3 := by omega
  rw [e1, e2, e3]
  show v % 256 + 256 * (v / 256 % 256) + 65536 * (v / 65536 % 256) +
    16777216 * (v / 16777216 % 256) = v
  omega

/-- A 32-bit read at an offset entirely inside the prefix of an append is
a read of the prefix. -/
theorem readU32LE_append_left (a b : List Nat) (k : Nat) (h : k + 4 ≤ a.length) :
    readU32LE (a ++ b) k = readU32LE a k := by
  unfold readU32LE
  rw [List.getD_append _ _ _ _ (by omega), List.getD_append _ _ _ _ (by omega),
    List.getD_append _ _ _ _ (by omega), List.getD_append _ _ _ _ (by omega)]


/-- Length of a `u32le` write. -/
theorem length_u32le (v : Nat) : (u32le v).length = 4 := rfl

/-- Length of a `u16le` write. -/
theorem length_u16le (v : Nat) : (u16le v).length = 2 := rfl

/-- The allocated header buffer has 44 bytes. -/
theorem wavH0_length : wavH0.length = 44 := by simp [wavH0]

/-- The header buffer keeps its 44 bytes through the write at offset 0. -/
theorem wavH1_length : (wavH1).length = 44 := by
  rw [wavH1, length_writeAt _ _ _ (by simp [wavH0_length, length_u32le, length_u16le])]
  exact wavH0_length

/-- The header buffer keeps its 44 bytes through the write at offset 4. -/
theorem wavH2_length (len : Nat) : (wavH2 len).length = 44 := by
  rw [wavH2, length_writeAt _ _ _ (by simp [wavH1_length, length_u32le, length_u16le])]
  exact wavH1_length

/-- The header buffer keeps its 44 bytes through the write at offset 8. -/
theorem wavH3_length (len : Nat) : (wavH3 len).length = 44 := by
  rw [wavH3, length_writeAt _ _ _ (by simp [wavH2_length, length_u32le, length_u16le])]
  exact wavH2_length len

/-- The header buffer keeps its 44 bytes through the write at offset 12. -/
theorem wavH4_length (len : Nat) : (wavH4 len).length = 44 := by
  rw [wavH4, length_writeAt _ _ _ (by simp [wavH3_length, length_u32le, length_u16le])]
  exact wavH3_length len

/-- The header buffer keeps its 44 bytes through the write at offset 16. -/
theorem wavH5_length (len : Nat) : (wavH5 len).length = 44 := by
  rw [wavH5, length_writeAt _ _ _ (by simp [wavH4_length, length_u32le, length_u16le])]
  exact wavH4_length len

/-- The header buffer keeps its 44 bytes through the write at offset 20. -/
theorem wavH6_length (len : Nat) : (wavH6 len).length = 44 := by
  rw [wavH6, length_writeAt _ _ _ (by simp [wavH5_length, length_u32le, length_u16le])]
  exact wavH5_length len

/-- The header buffer keeps its 44 bytes through the write at offset 22. -/
theorem wavH7_length (len : Nat) : (wavH7 len).length = 44 := by
  rw [wavH7, length_writeAt _ _ _ (by simp [wavH6_length, length_u32le, length_u16le])]
  exact wavH6_length len

/-- The header buffer keeps its 44 bytes through the write at offset 24. -/
theorem wavH8_length (len rate : Nat) : (wavH8 len rate).length = 44 := by
  rw [wavH8, length_writeAt _ _ _ (by simp [wavH7_length, length_u32le, length_u16le])]
  exact wavH7_length len

/-- The header buffer keeps its 44 bytes through the write at offset 28. -/
theorem wavH9_length (len rate : Nat) : (wavH9 len rate).length = 44 := by
  rw [wavH9, length_writeAt _ _ _ (by simp [wavH8_length, length_u32le, length_u16le])]
  exact wavH8_length len rate

/-- The header buffer keeps its 44 bytes through the write at offset 32. -/
theorem wavH10_length (len rate : Nat) : (wavH10 len rate).length = 44 := by
  rw [wavH10, length_writeAt _ _ _ (by simp [wavH9_length, length_u32le, length_u16le])]
  exact wavH9_length len rate

/-- The header buffer keeps its 44 bytes through the write at offset 34. -/
theorem wavH11_length (len rate : Nat) : (wavH11 len rate).length = 44 := by
  rw [wavH11, length_writeAt _ _ _ (by simp [wavH10_length, length_u32le, length_u16le])]
  exact wavH10_length len rate

/-- The header buffer keeps its 44 bytes through the write at offset 36. -/
theorem wavH12_length (len rate : Nat) : (wavH12 len rate).length = 44 := by
  rw [wavH12, length_writeAt _ _ _ (by simp [wavH11_length, length_u32le, length_u16le])]
  exact wavH11_length len rate

/-- The finished header has 44 bytes. -/
theorem wavHeaderBytes_length (len rate : Nat) : (wavHeaderBytes len rate).length = 44 := by
  rw [wavHeaderBytes, length_writeAt _ _ _ (by simp [wavH12_length, length_u32le])]
  exact wavH12_length len rate


/-- Membership characterization of `noTerm`. -/
theorem noTerm_eq_true_iff (cs : List StreamChunk) :
    noTerm cs = true ↔ ∀ c ∈ cs, c.type ≠ .done ∧ c.type ≠ .error := by
  simp [noTerm, chunkNonTerminal, List.all_eq_true]

/-- Membership in a conditional singleton. -/
theorem mem_ite_singleton {α : Type} {x c : α} {b : Bool}
    (h : x ∈ (if b then [c] else ([] : List α))) : x = c := by
  cases b
  · simp at h
  · simpa using h

/-- Every chunk of `emitToolCalls` is a `tool_call` chunk. -/
theorem types_emitToolCalls :
    ∀ (tcs : List Json) (x : StreamChunk), x ∈ emitToolCalls tcs → x.type = .tool_call := by
  intro tcs
  induction tcs with
  | nil => intro x h; cases h
  | cons tc rest ih =>
    intro x h
    unfold emitToolCalls at h
    split at h
    · cases h
    · dsimp only at h
      split at h
      · split at h
        · cases h
        · rcases List.mem_cons.mp h with h1 | h2
          · subst h1; rfl
          · exact ih x h2
      · rcases List.mem_cons.mp h with h1 | h2
        · subst h1; rfl
        · exact ih x h2

/-- Every chunk of the DeepSeek per-line handler is `text`, `thinking` or
`tool_call`. -/
theorem types_deepseekParsedChunks (j : Json) (x : StreamChunk)
    (h : x ∈ deepseekParsedChunks j) :
    x.type = .text ∨ x.type = .thinking ∨ x.type = .tool_call := by
  unfold deepseekParsedChunks at h
  split at h
  · cases h
  · split at h
    · cases h
    · cases h
    · dsimp only at h
      split at h
      · split at h
        · rcases List.mem_append.mp h with h1 | h2
          · left; exact (mem_ite_singleton h1) ▸ rfl
          · right; left; exact (mem_ite_singleton h2) ▸ rfl
        · rcases List.mem_append.mp h with h12 | h3
          · rcases List.mem_append.mp h12 with h1 | h2
            · left; exact (mem_ite_singleton h1) ▸ rfl
            · right; left; exact (mem_ite_singleton h2) ▸ rfl
          · right; right; exact types_emitToolCalls _ x h3
      · rcases List.mem_append.mp h with h1 | h2
        · left; exact (mem_ite_singleton h1) ▸ rfl
        · right; left; exact (mem_ite_singleton h2) ▸ rfl


/-- Membership in a two-level conditional. -/
theorem mem_ite2 {α : Type} {x c d : α} {a b : Bool}
    (h : x ∈ (if a then [c] else if b then [d] else ([] : List α))) : x = c ∨ x = d := by
  cases a
  · cases b
    · simp at h
    · right; simpa using h
  · left; simpa using h

/-- A chunk whose type is a named non-terminal type is non-terminal. -/
theorem chunk_ne_terminal (t : ChunkType) {c : StreamChunk} (h : c.type = t)
    (h1 : t ≠ .done) (h2 : t ≠ .error) : c.type ≠ .done ∧ c.type ≠ .error :=
  ⟨h ▸ h1, h ▸ h2⟩

/-- Every chunk of the Cloudflare text-path handler is `text` or
`tool_call`. -/
theorem types_cloudflareParsedChunks (j : Json) (x : StreamChunk)
    (h : x ∈ cloudflareParsedChunks j) :
    x.type = .text ∨ x.type = .tool_call := by
  unfold cloudflareParsedChunks at h
  split at h
  · cases h
  · dsimp only at h
    split at h
    · split at h
      · left; exact (mem_ite_singleton h) ▸ rfl
      · rcases List.mem_append.mp h with h1 | h2
        · left; exact (mem_ite_singleton h1) ▸ rfl
        · right; exact types_emitToolCalls _ x h2
    · left; exact (mem_ite_singleton h) ▸ rfl

/-- Every chunk of the Gemini chat-SSE part loop is non-terminal. -/
theorem types_geminiPartsChunks :
    ∀ (ps : List Json) (x : StreamChunk), x ∈ geminiPartsChunks ps →
      x.type ≠ .done ∧ x.type ≠ .error := by
  intro ps
  induction ps with
  | nil => intro x h; cases h
  | cons p rest ih =>
    intro x h
    unfold geminiPartsChunks at h
    split at h
    · cases h
    · dsimp only at h
      split at h
      · rcases List.mem_append.mp h with h12 | h3
        · rcases List.mem_append.mp h12 with h1 | h2
          · rcases mem_ite2 h1 with he | he
            · subst he; exact chunk_ne_terminal .thinking rfl (by decide) (by decide)
            · subst he; exact chunk_ne_terminal .text rfl (by decide) (by decide)
          · have := mem_ite_singleton h2; subst this
            exact chunk_ne_terminal .tool_call rfl (by decide) (by decide)
        · exact ih x h3
      · rcases List.mem_append.mp h with h12 | h3
        · rcases List.mem_append.mp h12 with h1 | h2
          · rcases mem_ite2 h1 with he | he
            · subst he; exact chunk_ne_terminal .thinking rfl (by decide) (by decide)
            · subst he; exact chunk_ne_terminal .text rfl (by decide) (by decide)
          · have := mem_ite_singleton h2; subst this
            exact chunk_ne_terminal .tool_call rfl (by decide) (by decide)
        · exact ih x h3
      · split at h
        · rcases List.mem_append.mp h with h123 | h4
          · rcases List.mem_append.mp h123 with h12 | h3
            · rcases List.mem_append.mp h12 with h1 | h2
              · rcases mem_ite2 h1 with he | he
                · subst he; exact chunk_ne_terminal .thinking rfl (by decide) (by decide)
                · subst he; exact chunk_ne_terminal .text rfl (by decide) (by decide)
              · have := mem_ite_singleton h2; subst this
                exact chunk_ne_terminal .tool_call rfl (by decide) (by decide)
            · have := List.mem_singleton.mp h3; subst this
              exact chunk_ne_terminal .audio rfl (by decide) (by decide)
          · exact ih x h4
        · rcases List.mem_append.mp h with h12 | h3
          · rcases List.mem_append.mp h12 with h1 | h2
            · rcases mem_ite2 h1 with he | he
              · subst he; exact chunk_ne_terminal .thinking rfl (by decide) (by decide)
              · subst he; exact chunk_ne_terminal .text rfl (by decide) (by decide)
            · have := mem_ite_singleton h2; subst this
              exact chunk_ne_terminal .tool_call rfl (by decide) (by decide)
          · exact ih x h3
      · rcases List.mem_append.mp h with h1 | h2
        · rcases mem_ite2 h1 with he | he
          · subst he; exact chunk_ne_terminal .thinking rfl (by decide) (by decide)
          · subst he; exact chunk_ne_terminal .text rfl (by decide) (by decide)
        · have := mem_ite_singleton h2; subst this
          exact chunk_ne_terminal .tool_call rfl (by decide) (by decide)

/-- Every chunk forwarded by the native-audio part loop is `text` or
`tool_call` (audio is buffered, never forwarded here). -/
theorem types_geminiAudioParts :
    ∀ (ps : List Json) (x : StreamChunk), x ∈ (geminiAudioParts ps).1 →
      x.type = .text ∨ x.type = .tool_call := by
  intro ps
  induction ps with
  | nil => intro x h; cases h
  | cons p rest ih =>
    intro x h
    unfold geminiAudioParts at h
    split at h
    · cases h
    · dsimp only at h
      split at h
      · split at h
        · rcases List.mem_append.mp h with h12 | h3
          · rcases List.mem_append.mp h12 with h1 | h2
            · left; exact (mem_ite_singleton h1) ▸ rfl
            · right; exact (mem_ite_singleton h2) ▸ rfl
          · exact ih x h3
        · left; exact (mem_ite_singleton h) ▸ rfl
      · rcases List.mem_append.mp h with h12 | h3
        · rcases List.mem_append.mp h12 with h1 | h2
          · left; exact (mem_ite_singleton h1) ▸ rfl
          · right; exact (mem_ite_singleton h2) ▸ rfl
        · exact ih x h3

/-- Lift the part-loop property through one native-audio line. -/
theorem types_geminiAudioLine (l : Str) (x : StreamChunk)
    (h : x ∈ (geminiAudioLine l).1) : x.type = .text ∨ x.type = .tool_call := by
  unfold geminiAudioLine at h
  split at h
  · split at h
    · cases h
    · split at h
      · cases h
      · dsimp only at h
        split at h
        · cases h
        · exact types_geminiAudioParts _ x h
  · cases h

/-- Lift the part-loop property through all native-audio lines. -/
theorem types_geminiAudioLines :
    ∀ (ls : List Str) (x : StreamChunk), x ∈ (geminiAudioLines ls).1 →
      x.type = .text ∨ x.type = .tool_call := by
  intro ls
  induction ls with
  | nil => intro x h; cases h
  | cons l ls ih =>
    intro x h
    unfold geminiAudioLines at h
    dsimp only at h
    rcases List.mem_append.mp h with h1 | h2
    · exact types_geminiAudioLine l x h1
    · exact ih x h2


/-- Derives `noTerm` from per-chunk non-terminality. -/
theorem noTerm_of_types {cs : List StreamChunk}
    (h : ∀ c ∈ cs, c.type ≠ ChunkType.done ∧ c.type ≠ ChunkType.error) :
    noTerm cs = true := by
  rw [noTerm_eq_true_iff]; exact h

/-- The DeepSeek line handler is well behaved. -/
theorem handlerOk_deepseekLine : handlerOk deepseekLine := by
  intro l
  unfold deepseekLine
  split
  · dsimp only
    split
    · simp
    · split
      · simp [noTerm]
      · simp only [if_neg Bool.false_ne_true, reduceIte]
        exact noTerm_of_types (fun c hc =>
          match types_deepseekParsedChunks _ c hc with
          | .inl h => chunk_ne_terminal .text h (by decide) (by decide)
          | .inr (.inl h) => chunk_ne_terminal .thinking h (by decide) (by decide)
          | .inr (.inr h) => chunk_ne_terminal .tool_call h (by decide) (by decide))
  · simp [noTerm]

/-- The Cloudflare text-path line handler is well behaved. -/
theorem handlerOk_cloudflareLine : handlerOk cloudflareLine := by
  intro l
  unfold cloudflareLine
  split
  · dsimp only
    split
    · simp
    · split
      · simp [noTerm]
      · simp only [reduceIte]
        exact noTerm_of_types (fun c hc =>
          match types_cloudflareParsedChunks _ c hc with
          | .inl h => chunk_ne_terminal .text h (by decide) (by decide)
          | .inr h => chunk_ne_terminal .tool_call h (by decide) (by decide))
  · simp [noTerm]

/-- The Anthropic line handler is well behaved. -/
theorem handlerOk_anthropicLine : handlerOk anthropicLine := by
  intro l
  unfold anthropicLine
  split
  · split
    · simp [noTerm]
    · split
      · simp [noTerm]
      · dsimp only
        split
        · split
          · simp [noTerm]
          · simp [noTerm]
          · split
            · simp [noTerm, chunkNonTerminal, mkText]
            · simp [noTerm]
        · split
          · split
            · simp [noTerm]
            · simp [noTerm]
            · split
              · simp [noTerm, chunkNonTerminal, mkToolCall]
              · simp [noTerm]
          · split
            · simp
            · simp [noTerm]
  · simp [noTerm]

/-- The Gemini chat-SSE line handler is well behaved (and never stops the
loop). -/
theorem handlerOk_geminiLine : handlerOk geminiLine := by
  intro l
  unfold geminiLine
  split
  · split
    · simp [noTerm]
    · split
      · simp [noTerm]
      · dsimp only
        split
        · simp [noTerm]
        · simp only [reduceIte]
          exact noTerm_of_types (fun c hc => types_geminiPartsChunks _ c hc)
  · simp [noTerm]

/-- Every `runLines` output is a non-terminal prefix followed by exactly
one `done`. -/
theorem runLines_shape (f : Str → List StreamChunk × Bool) (hf : handlerOk f) :
    ∀ ls, ∃ pre, noTerm pre = true ∧ runLines f ls = pre ++ [mkDone] := by
  intro ls
  induction ls with
  | nil => exact ⟨[], rfl, rfl⟩
  | cons l ls ih =>
    obtain ⟨pre, hpre, heq⟩ := ih
    have h := hf l
    by_cases hb : (f l).2
    · refine ⟨[], rfl, ?_⟩
      rw [if_pos hb] at h
      simp [runLines, hb, h]
    · refine ⟨(f l).1 ++ pre, ?_, ?_⟩
      · rw [if_neg hb] at h
        rw [noTerm_append, h, hpre]; rfl
      · simp [runLines, hb, heq]


/-- A non-terminal prefix closed by `done` is well formed. -/
theorem wfe_done {pre : List StreamChunk} (h : noTerm pre = true) :
    wellFormedEnd (pre ++ [mkDone]) := ⟨pre, h, Or.inl rfl⟩

/-- A lone error chunk is well formed. -/
theorem wfe_error (msg : Str) : wellFormedEnd [mkError msg] :=
  ⟨[], rfl, Or.inr ⟨mkError msg, rfl, Or.inl rfl⟩⟩

/-- An error chunk followed by one final `done` is well formed. -/
theorem wfe_error_done (msg : Str) : wellFormedEnd [mkError msg, mkDone] :=
  ⟨[], rfl, Or.inr ⟨mkError msg, rfl, Or.inr rfl⟩⟩

/-- The Cloudflare non-chat bridge emits only non-terminal chunks before
its `done`. -/
theorem noTerm_cfNonChatChunks (r : AdapterResponse) :
    noTerm (cfNonChatChunks r) = true := by
  unfold cfNonChatChunks
  split
  · rfl
  · split
    · refine noTerm_of_types (fun c hc => ?_)
      rcases List.mem_map.mp hc with ⟨i, _, he⟩
      exact chunk_ne_terminal .image (he ▸ rfl) (by decide) (by decide)
    · split
      · rfl
      · rfl

/-- The modelled `DeepSeekAdapter.chatStream` always terminates well. -/
theorem aux_wfe_deepseek : ∀ f, wellFormedEnd (deepseekChatStream f) := by
  intro f
  cases f with
  | notOk st body => exact wfe_error _
  | okNoBody => exact wfe_error _
  | ok reads =>
    obtain ⟨pre, hpre, heq⟩ := runLines_shape deepseekLine handlerOk_deepseekLine
      (collectLines reads)
    show wellFormedEnd (runLines deepseekLine (collectLines reads))
    rw [heq]
    exact wfe_done hpre

/-- The modelled `AnthropicAdapter.chatStream` always terminates well. -/
theorem aux_wfe_anthropic : ∀ f, wellFormedEnd (anthropicChatStream f) := by
  intro f
  cases f with
  | notOk st body => exact wfe_error _
  | okNoBody => exact wfe_error _
  | ok reads =>
    obtain ⟨pre, hpre, heq⟩ := runLines_shape anthropicLine handlerOk_anthropicLine
      (collectLines reads)
    show wellFormedEnd (runLines anthropicLine (collectLines reads))
    rw [heq]
    exact wfe_done hpre

/-- The modelled `CloudflareAdapter.chatStream` always terminates well. -/
theorem aux_wfe_cloudflare :
    ∀ caps co f, wellFormedEnd (cloudflareChatStream caps co f) := by
  intro caps co f
  unfold cloudflareChatStream
  split
  · cases co with
    | ok r => exact wfe_done (noTerm_cfNonChatChunks r)
    | error e => exact wfe_error_done e
  · cases f with
    | notOk st body => exact wfe_error _
    | okNoBody => exact wfe_error _
    | ok reads =>
      obtain ⟨pre, hpre, heq⟩ := runLines_shape cloudflareLine handlerOk_cloudflareLine
        (collectLines reads)
      show wellFormedEnd (runLines cloudflareLine (collectLines reads))
      rw [heq]
      exact wfe_done hpre

/-- The Gemini chat SSE path always terminates well. -/
theorem aux_wfe_geminiSse : ∀ f, wellFormedEnd (geminiSseStream f) := by
  intro f
  cases f with
  | notOk st body => exact wfe_error _
  | okNoBody => exact wfe_error _
  | ok reads =>
    obtain ⟨pre, hpre, heq⟩ := runLines_shape geminiLine handlerOk_geminiLine
      (collectLines reads)
    show wellFormedEnd (runLines geminiLine (collectLines reads))
    rw [heq]
    exact wfe_done hpre

/-- The modelled `GeminiAdapter.chatStream` terminates well whenever the message list
is nonempty and the buffered PCM fits the 32-bit WAV header fields. -/
theorem aux_wfe_gemini :
    ∀ model caps msgs tts f, msgs ≠ [] → 36 + geminiPcmTotal f < 4294967296 →
      wellFormedEnd (geminiChatStream model caps msgs tts f) := by
  intro model caps msgs tts f hmsgs hlen
  unfold geminiChatStream
  split
  · cases tts with
    | ok a =>
      exact ⟨[{ type := .audio, content := some (.str a.url), mimeType := some a.mimeType }],
        rfl, Or.inl rfl⟩
    | error e => exact wfe_error_done e
  · split
    · split
      · rename_i hnone
        exact absurd (List.getLast?_eq_none_iff.mp hnone) hmsgs
      · split
        · cases f with
          | notOk st body => exact wfe_error _
          | okNoBody => exact wfe_error _
          | ok reads =>
            show wellFormedEnd (geminiNativeAudioOk reads)
            have h1 : noTerm (geminiAudioLines (collectLines reads)).1 = true :=
              noTerm_of_types (fun c hc =>
                match types_geminiAudioLines _ c hc with
                | .inl h => chunk_ne_terminal .text h (by decide) (by decide)
                | .inr h => chunk_ne_terminal .tool_call h (by decide) (by decide))
            unfold geminiNativeAudioOk
            dsimp only
            split
            · have hg : 36 + ((geminiAudioLines (collectLines reads)).2.flatten).length <
                  4294967296 := hlen
              have he : encodeWavHeader ((geminiAudioLines (collectLines reads)).2.flatten)
                  24000 =
                  some (wavHeaderBytes
                      ((geminiAudioLines (collectLines reads)).2.flatten).length 24000 ++
                    (geminiAudioLines (collectLines reads)).2.flatten) := by
                unfold encodeWavHeader
                rw [if_pos ⟨hg, by norm_num⟩]
              rw [he]
              dsimp only
              have hn : noTerm ((geminiAudioLines (collectLines reads)).1 ++
                  [{ type := .audio,
                     content := some (.str (b64Encode
                       (wavHeaderBytes ((geminiAudioLines (collectLines reads)).2.flatten).length
                          24000 ++ (geminiAudioLines (collectLines reads)).2.flatten))),
                     mimeType := some (S "audio/wav") }]) = true := by
                rw [noTerm_append, h1]
                rfl
              have hw := wfe_done hn
              simpa [List.append_assoc] using hw
            · exact wfe_done h1
        · exact aux_wfe_geminiSse f
    · exact aux_wfe_geminiSse f


/-- The `data` chunk length field (bytes 40-43) of the finished header
holds the PCM byte length. -/
theorem readU32LE_wavHeaderBytes_40 (n rate : Nat) (hn : n < 4294967296) :
    readU32LE (wavHeaderBytes n rate) 40 = n := by
  rw [wavHeaderBytes]
  exact readU32LE_writeAt_at _ 40 n (by simp [wavH12_length]) hn

/-- The RIFF size field (bytes 4-7) of the finished header holds
`36 + n`. -/
theorem readU32LE_wavHeaderBytes_4 (n rate : Nat) (hn : 36 + n < 4294967296) :
    readU32LE (wavHeaderBytes n rate) 4 = 36 + n := by
  rw [wavHeaderBytes,
    readU32LE_writeAt_before _ _ _ _ (by omega) (by simp [wavH12_length]), wavH12,
    readU32LE_writeAt_before _ _ _ _ (by omega) (by simp [wavH11_length]), wavH11,
    readU32LE_writeAt_before _ _ _ _ (by omega) (by simp [wavH10_length]), wavH10,
    readU32LE_writeAt_before _ _ _ _ (by omega) (by simp [wavH9_length]), wavH9,
    readU32LE_writeAt_before _ _ _ _ (by omega) (by simp [wavH8_length]), wavH8,
    readU32LE_writeAt_before _ _ _ _ (by omega) (by simp [wavH7_length]), wavH7,
    readU32LE_writeAt_before _ _ _ _ (by omega) (by simp [wavH6_length]), wavH6,
    readU32LE_writeAt_before _ _ _ _ (by omega) (by simp [wavH5_length]), wavH5,
    readU32LE_writeAt_before _ _ _ _ (by omega) (by simp [wavH4_length]), wavH4,
    readU32LE_writeAt_before _ _ _ _ (by omega) (by simp [wavH3_length]), wavH3,
    readU32LE_writeAt_before _ _ _ _ (by omega) (by simp [wavH2_length]), wavH2]
  exact readU32LE_writeAt_at _ 4 (36 + n) (by simp [wavH1_length]) hn

/-- C4: the WAV container's `data` chunk length field (bytes 40-43,
little-endian) equals the PCM byte length `N`, and its RIFF size field
(bytes 4-7, little-endian) equals `36 + N`, whenever the 32-bit header
writes are in range (`Buffer.writeUInt32LE` throws otherwise). -/
theorem C4_theorem (pcm : List Nat) (rate : Nat)
    (h1 : 36 + pcm.length < 4294967296) (h2 : rate * 2 < 4294967296) :
    ∃ out, encodeWavHeader pcm rate = some out ∧
      readU32LE out 40 = pcm.length ∧ readU32LE out 4 = 36 + pcm.length := by
  refine ⟨wavHeaderBytes pcm.length rate ++ pcm, ?_, ?_, ?_⟩
  · unfold encodeWavHeader
    rw [if_pos ⟨h1, h2⟩]
  · rw [readU32LE_append_left _ _ _ (by simp [wavHeaderBytes_length])]
    exact readU32LE_wavHeaderBytes_40 pcm.length rate (by omega)
  · rw [readU32LE_append_left _ _ _ (by simp [wavHeaderBytes_length])]
    exact readU32LE_wavHeaderBytes_4 pcm.length rate h1

/-- C4 witness: the theorem applied to three PCM bytes at 24 kHz. -/
theorem C4_witness :
    (36 + wavWitnessPcm.length < 4294967296 ∧ 24000 * 2 < 4294967296) ∧
    (∃ out, encodeWavHeader wavWitnessPcm 24000 = some out ∧
      readU32LE out 40 = wavWitnessPcm.length ∧
      readU32LE out 4 = 36 + wavWitnessPcm.length) :=
  ⟨⟨by decide, by decide⟩, C4_theorem wavWitnessPcm 24000 (by decide) (by decide)⟩


/-- C1 counterexample: the Cloudflare non-chat fallback path emits a
`done` chunk after the `error` chunk, so a chunk is emitted after an
`error`, contradicting the claim as stated. -/
theorem C1_counterexample :
    cloudflareChatStream (some { tts := true }) (.error cfTtsErr) (.ok []) =
      [mkError cfTtsErr, mkDone] ∧
    noChunkAfterTerminal [mkError cfTtsErr, mkDone] = false :=
  ⟨rfl, rfl⟩

/-- C1 (amended): for every adapter and every input, the chunk sequence of
`chatStream` is a non-terminal prefix ending with exactly one `done`, or
with an `error` as last element, or — in the Cloudflare non-chat and
Gemini TTS fallback paths — with an `error` followed by one final `done`;
nothing is ever emitted after the final chunk. The Gemini adapter
additionally needs a nonempty message list (an empty one makes
`hasAudioInput` throw before any yield when `asr`/`stt` is declared) and
PCM small enough for the WAV header write not to throw. -/
theorem C1_theorem :
    (∀ f, wellFormedEnd (deepseekChatStream f)) ∧
    (∀ f, wellFormedEnd (anthropicChatStream f)) ∧
    (∀ caps co f, wellFormedEnd (cloudflareChatStream caps co f)) ∧
    (∀ model caps msgs tts f, msgs ≠ [] → 36 + geminiPcmTotal f < 4294967296 →
      wellFormedEnd (geminiChatStream model caps msgs tts f)) :=
  ⟨aux_wfe_deepseek, aux_wfe_anthropic, aux_wfe_cloudflare, aux_wfe_gemini⟩

/-- C1 witness: the Gemini conjunct applied at a concrete input. -/
theorem C1_witness :
    (([sysMsg] : List ChatMessage) ≠ [] ∧
      36 + geminiPcmTotal FetchOutcome.okNoBody < 4294967296) ∧
    wellFormedEnd (geminiChatStream (S "gemini-pro") none [sysMsg]
      (.error (S "x")) FetchOutcome.okNoBody) :=
  ⟨⟨by decide, by decide⟩,
   C1_theorem.2.2.2 (S "gemini-pro") none [sysMsg] (.error (S "x"))
     FetchOutcome.okNoBody (by decide) (by decide)⟩

/-- C2: the OpenAI-compatible adapter turns the two delta lines and the
`[DONE]` sentinel into exactly `text "Hi"`, `text " there"`, `done`. -/
theorem C2_theorem :
    deepseekChatStream (.ok [c2read1, c2read2, c2read3]) =
      [mkText (some (strJ (S "Hi"))), mkText (some (strJ (S " there"))), mkDone] := rfl

/-- C3: `detectModelType` coincides with the spec's priority-ordered
dispatch function on every capability set; as a total function of the
capability record it is pure and deterministic, independent of any
declaration order. -/
theorem C3_theorem : ∀ caps, detectModelType caps = detectModelTypeSpec caps := by
  intro caps
  cases caps <;> rfl


/-- C5 counterexample: with `tools` present but empty, the Anthropic
adapter's outbound body does contain a `tools` field — the empty array
`[]` is truthy, so `formatTools` runs and `"tools": []` is serialized. -/
theorem C5_counterexample :
    bodyHasKey (anthropicBody emptyToolsReq) (S "tools") = true ∧
    lookupField (anthropicBody emptyToolsReq) (S "tools") = some (Json.arr []) :=
  ⟨rfl, rfl⟩

/-- C5 (amended): with `tools` present but empty, the OpenAI-compatible
bodies (DeepSeek, Cloudflare chat) omit the `tools` field, while the
Anthropic body sends `"tools": []` and the Gemini body sends one
`functionDeclarations: []` group. -/
theorem C5_theorem (r : AdapterRequestM) (h : r.tools = some []) :
    bodyHasKey (deepseekBody r) (S "tools") = false ∧
    bodyHasKey (cloudflareChatBody r) (S "tools") = false ∧
    lookupField (anthropicBody r) (S "tools") = some (Json.arr []) ∧
    lookupField (geminiBody r) (S "tools") =
      some (Json.arr [Json.obj [(S "functionDeclarations", Json.arr [])]]) := by
  obtain ⟨msgs, model, burl, akey, reas, tools, temp, maxT, caps⟩ := r
  simp only at h
  subst h
  refine ⟨?_, ?_, rfl, rfl⟩
  · cases reas <;> cases maxT <;> rfl
  · cases maxT <;> rfl

/-- C5 witness: the theorem applied to the concrete empty-tools request. -/
theorem C5_witness :
    emptyToolsReq.tools = some [] ∧
    (bodyHasKey (deepseekBody emptyToolsReq) (S "tools") = false ∧
     bodyHasKey (cloudflareChatBody emptyToolsReq) (S "tools") = false ∧
     lookupField (anthropicBody emptyToolsReq) (S "tools") = some (Json.arr []) ∧
     lookupField (geminiBody emptyToolsReq) (S "tools") =
       some (Json.arr [Json.obj [(S "functionDeclarations", Json.arr [])]])) :=
  ⟨rfl, C5_theorem emptyToolsReq rfl⟩

/-- The role emitted by the Gemini message formatter. -/
theorem geminiFormatMessage_role (m : ChatMessage) :
    (geminiFormatMessage m).role = if m.role = .assistant then S "model" else S "user" := by
  unfold geminiFormatMessage
  cases m.content <;> rfl

/-- C6 counterexample: a `system` message does not pass through
unchanged — the Gemini formatter maps it to role `user`. -/
theorem C6_counterexample :
    (geminiFormatMessages [sysMsg]).map (fun gc => gc.role) = [S "user"] ∧
    S "user" ≠ S "system" :=
  ⟨rfl, by decide⟩

/-- C6 (amended): the Gemini formatter maps `assistant` to `model` and
every other role — `user` unchanged, but also `system` — to `user`. -/
theorem C6_theorem (msgs : List ChatMessage) :
    (geminiFormatMessages msgs).map (fun gc => gc.role) =
      msgs.map (fun m => if m.role = .assistant then S "model" else S "user") := by
  induction msgs with
  | nil => rfl
  | cons m rest ih =>
    simp only [geminiFormatMessages, List.map_cons, List.map_map] at ih ⊢
    rw [geminiFormatMessage_role m]
    exact congrArg _ ih

/-- C7: a message whose only content is an image with a remote
(non-`data:`) URL is formatted by the Anthropic adapter into a message
with an empty content array — the image is dropped with no block, no
error and no signal of any kind. -/
theorem C7_theorem :
    anthropicFormatMessages [] [remoteImageMsg] =
      { system := [],
        messages := [Json.obj [(S "role", strJ (S "user")), (S "content", Json.arr [])]] } :=
  rfl


/-- A line whose handler yields nothing and does not stop can be removed
from the line sequence without changing the stream. -/
theorem runLines_skip (f : Str → List StreamChunk × Bool) (bad : Str)
    (hf : f bad = ([], false)) :
    ∀ l1 l2, runLines f (l1 ++ bad :: l2) = runLines f (l1 ++ l2) := by
  intro l1
  induction l1 with
  | nil =>
    intro l2
    show runLines f (bad :: l2) = runLines f l2
    simp only [runLines, hf]
    simp
  | cons a l1 ih =>
    intro l2
    simp only [List.cons_append]
    unfold runLines
    rw [ih l2]

/-- The DeepSeek handler skips a malformed non-sentinel `data:` line. -/
theorem deepseekLine_skip (bad : Str) (hp : strStarts dataPrefix bad = true)
    (hd : bad.drop 6 ≠ doneSentinel) (hj : parseJson (bad.drop 6) = none) :
    deepseekLine bad = ([], false) := by
  unfold deepseekLine
  rw [if_pos hp, if_neg hd, hj]

/-- The Gemini handler skips a malformed `data:` line. -/
theorem geminiLine_skip (bad : Str) (hp : strStarts dataPrefix bad = true)
    (hj : parseJson (bad.drop 6) = none) :
    geminiLine bad = ([], false) := by
  unfold geminiLine
  rw [if_pos hp, hj]

/-- C8: a `data:` line whose payload is unparseable JSON (and is not the
`[DONE]` sentinel) is skipped locally — removing it changes nothing in
the chunk sequence of the OpenAI-compatible and Gemini SSE loops — and
in particular the concrete malformed-then-valid body still yields the
`"ok"` text chunk. -/
theorem C8_theorem :
    (∀ (bad : Str) (l1 l2 : List Str),
      strStarts dataPrefix bad = true → bad.drop 6 ≠ doneSentinel →
      parseJson (bad.drop 6) = none →
      runLines deepseekLine (l1 ++ bad :: l2) = runLines deepseekLine (l1 ++ l2) ∧
      runLines geminiLine (l1 ++ bad :: l2) = runLines geminiLine (l1 ++ l2)) ∧
    deepseekChatStream (.ok [c8badLine ++ [ '\n' ] ++ c8goodLine ++ [ '\n' ]]) =
      [mkText (some (strJ (S "ok"))), mkDone] := by
  constructor
  · intro bad l1 l2 hp hd hj
    exact ⟨runLines_skip deepseekLine bad (deepseekLine_skip bad hp hd hj) l1 l2,
      runLines_skip geminiLine bad (geminiLine_skip bad hp hj) l1 l2⟩
  · rfl

/-- C8 witness: the universal part applied to the concrete malformed
line in front of the valid line. -/
theorem C8_witness :
    (strStarts dataPrefix c8badLine = true ∧ c8badLine.drop 6 ≠ doneSentinel ∧
      parseJson (c8badLine.drop 6) = none) ∧
    (runLines deepseekLine ([] ++ c8badLine :: [c8goodLine]) =
       runLines deepseekLine ([] ++ [c8goodLine]) ∧
     runLines geminiLine ([] ++ c8badLine :: [c8goodLine]) =
       runLines geminiLine ([] ++ [c8goodLine])) :=
  ⟨⟨rfl, by decide, rfl⟩,
   C8_theorem.1 c8badLine [] [c8goodLine] rfl (by decide) rfl⟩

/-- C9: in the Gemini native-audio path, every immediately-forwarded
chunk is `text` or `tool_call`; all PCM parts are held back and, when at
least one arrived (and the total fits the 32-bit WAV header fields), the
stream is those forwarded chunks, then exactly one consolidated `audio`
chunk (the WAV wrap of all PCM in arrival order, re-encoded as base64),
then the `done` chunk last of all. -/
theorem C9_theorem (reads : List Str)
    (hpcm : (geminiAudioLines (collectLines reads)).2.length > 0)
    (hlen : 36 + ((geminiAudioLines (collectLines reads)).2.flatten).length < 4294967296) :
    ∃ pre,
      (∀ c ∈ pre, c.type = .text ∨ c.type = .tool_call) ∧
      geminiNativeAudioOk reads =
        pre ++
        [{ type := .audio,
           content := some (.str (b64Encode
             (wavHeaderBytes ((geminiAudioLines (collectLines reads)).2.flatten).length 24000 ++
               (geminiAudioLines (collectLines reads)).2.flatten))),
           mimeType := some (S "audio/wav") }, mkDone] := by
  refine ⟨(geminiAudioLines (collectLines reads)).1,
    fun c hc => types_geminiAudioLines _ c hc, ?_⟩
  unfold geminiNativeAudioOk
  dsimp only
  rw [if_pos hpcm]
  have he : encodeWavHeader ((geminiAudioLines (collectLines reads)).2.flatten) 24000 =
      some (wavHeaderBytes ((geminiAudioLines (collectLines reads)).2.flatten).length 24000 ++
        (geminiAudioLines (collectLines reads)).2.flatten) := by
    unfold encodeWavHeader
    rw [if_pos ⟨hlen, by norm_num⟩]
  rw [he]
  simp

set_option maxRecDepth 100000 in
/-- C9 witness: one line carrying a text part and one PCM part. -/
theorem C9_witness :
    ((geminiAudioLines (collectLines [c9read])).2.length > 0 ∧
      36 + ((geminiAudioLines (collectLines [c9read])).2.flatten).length < 4294967296) ∧
    (∃ pre,
      (∀ c ∈ pre, c.type = .text ∨ c.type = .tool_call) ∧
      geminiNativeAudioOk [c9read] =
        pre ++
        [{ type := .audio,
           content := some (.str (b64Encode
             (wavHeaderBytes ((geminiAudioLines (collectLines [c9read])).2.flatten).length
                24000 ++ (geminiAudioLines (collectLines [c9read])).2.flatten))),
           mimeType := some (S "audio/wav") }, mkDone]) :=
  ⟨⟨by decide, by decide⟩, C9_theorem [c9read] (by decide) (by decide)⟩


/-- The relay loop satisfies the ordering invariant from any previous
frame, because a named `tool_call` chunk always enqueues its own
`tool_result` frame immediately before itself. -/
theorem framesOk_routeStreamFrames (exec : Json → Json → Json) :
    ∀ (cs : List StreamChunk) (prev : Option Frame),
      framesOk exec prev (routeStreamFrames exec cs) := by
  intro cs
  induction cs with
  | nil => intro prev; exact trivial
  | cons c cs ih =>
    intro prev
    unfold routeStreamFrames
    cases hnt : namedToolCall? c with
    | some nt =>
      refine ⟨trivial, ?_, ?_⟩
      · simp only [framesOk, hnt]
      · split
        · exact trivial
        · exact ih (some (Frame.chunk c))
    | none =>
      refine ⟨?_, ?_⟩
      · simp only [framesOk, hnt]
      · split
        · exact trivial
        · exact ih (some (Frame.chunk c))

/-- C10: in the route's streaming branch, for every adapter chunk stream
and every tool executor, each forwarded named `tool_call` chunk frame is
immediately preceded by the `tool_result` frame the route synthesized by
executing that tool — the consumer always observes the `tool_result`
before the `tool_call` it answers. -/
theorem C10_theorem (exec : Json → Json → Json) (searchResults : Option Json)
    (chunks : List StreamChunk) :
    framesOk exec none (routeFrames exec searchResults chunks) := by
  unfold routeFrames
  cases searchResults with
  | none => exact framesOk_routeStreamFrames exec chunks none
  | some d =>
    exact ⟨trivial, framesOk_routeStreamFrames exec chunks (some (Frame.searchResults d))⟩

end ChatSpec
